import Mathlib

/-!
Shallow embedding of the mbox-16 6502 emulator core:
the memory fabric (`src/core/components/mem.py`), the CPU core
(`src/core/components/cpu.py`) and the two-pass assembler
(`src/core/asm/asm.py`, `src/core/asm/addrtype.py`).

Python `str` values are modelled as `List Char` (the sources only ever
handle ASCII operand text); Python's unbounded `int` is modelled as
`Nat` where the source value is provably non-negative and as `Int`
where it can go negative (assembler offsets, displacement arithmetic).
Python `x & 0xFF` on a non-negative int is `x &&& 0xFF`; on a possibly
negative int it is `Int.emod x 256` (Python's `&` of a negative int
with an all-ones mask equals the non-negative remainder).
-/

namespace MBox

/-! ## Python string primitives (on `List Char`) -/

/-- Python `str.isspace` for a single character, restricted to the ASCII
whitespace the assembler sources can contain. -/
def pyIsSpaceChar (c : Char) : Bool :=
  c = ' ' || c = '\t' || c = '\n' || c = '\r' || c = '\x0b' || c = '\x0c'

/-- Python `str.strip()`: remove leading and trailing whitespace. -/
def pyStrip (s : List Char) : List Char :=
  ((s.dropWhile pyIsSpaceChar).reverse.dropWhile pyIsSpaceChar).reverse

/-- Python `s.startswith(p)`: `p` is a prefix of `s`. -/
def pyStartsWith : List Char → List Char → Bool
  | _, [] => true
  | [], _ :: _ => false
  | c :: s, d :: p => c == d && pyStartsWith s p

/-- Python `s.endswith(p)`. -/
def pyEndsWith (s p : List Char) : Bool :=
  pyStartsWith s.reverse p.reverse

/-- Python `str.isdigit`, restricted to ASCII digits. -/
def pyIsDigit (s : List Char) : Bool :=
  !s.isEmpty && s.all Char.isDigit

/-- An ASCII identifier-start character: `[A-Za-z_]`. -/
def identStartChar (c : Char) : Bool :=
  c.isAlpha || c = '_'

/-- An ASCII identifier character: `[A-Za-z0-9_]`. -/
def identChar (c : Char) : Bool :=
  c.isAlphanum || c = '_'

/-- Python `str.isidentifier`, restricted to ASCII identifiers. -/
def pyIsIdent (s : List Char) : Bool :=
  match s with
  | [] => false
  | c :: rest => identStartChar c && rest.all identChar

/-- Python `str.upper()`, restricted to ASCII. -/
def pyUpper (s : List Char) : List Char :=
  s.map Char.toUpper

/-- Python `s[:-n]` for `n ≤ len s`. -/
def dropEnd (s : List Char) (n : Nat) : List Char :=
  s.take (s.length - n)

/-- The regex `^([A-Za-z_][A-Za-z0-9_]*)\s*([\+\-])\s*(\d+)$` used for
`LABEL+N` / `LABEL-N` operand expressions; returns the label, the sign
(`true` for `+`) and the decimal digits.  Greedy munch of the identifier
equals the regex semantics because identifier characters can match
neither `\s*` nor `[\+\-]`. -/
def matchLabelExpr (s : List Char) : Option (List Char × Bool × List Char) :=
  match s with
  | [] => none
  | c :: rest =>
    if identStartChar c then
      let idTail := rest.takeWhile identChar
      let rest2 := (rest.dropWhile identChar).dropWhile pyIsSpaceChar
      match rest2 with
      | op :: rest3 =>
        if op = '+' || op = '-' then
          let digits := rest3.dropWhile pyIsSpaceChar
          if !digits.isEmpty && digits.all Char.isDigit then
            some (c :: idTail, op = '+', digits)
          else none
        else none
      | [] => none
    else none

/-- Decimal value of an ASCII digit string (the digits are already
checked by the caller). -/
def digitsToNat (s : List Char) : Nat :=
  s.foldl (fun acc c => acc * 10 + (c.toNat - '0'.toNat)) 0

/-- Hex digit predicate for Python `int(x, 16)`. -/
def isHexDigit (c : Char) : Bool :=
  c.isDigit || ('a' ≤ c && c ≤ 'f') || ('A' ≤ c && c ≤ 'F')

/-- Numeric value of one hex digit. -/
def hexDigitVal (c : Char) : Nat :=
  if c.isDigit then c.toNat - '0'.toNat
  else if 'a' ≤ c && c ≤ 'f' then c.toNat - 'a'.toNat + 10
  else c.toNat - 'A'.toNat + 10

/-- Python `int(s, 16)` on the plain hex strings the assembler emits
(no sign, no underscores): `none` models the `ValueError` Python raises
on an empty or non-hex string. -/
def parseHex (s : List Char) : Option Nat :=
  if !s.isEmpty && s.all isHexDigit then
    some (s.foldl (fun acc c => acc * 16 + hexDigitVal c) 0)
  else none

/-! ## Addressing modes — `src/core/asm/addrtype.py` -/

/-- `AddrType(IntEnum)` from `addrtype.py`, the 15 addressing-mode
variants of the instruction set. -/
inductive AddrType where
  | IMM | ZP | ZPX | ZPY | ABS | ABSX | ABSY | INDX | INDY
  | LABEL | BYTE | ACC | IMPLIED | IND | REL
deriving DecidableEq, Repr

/-! ## Operand classifier — `Assembler.parse_operand` (`asm.py` 18-107) -/

/-- The branch mnemonic set from `parse_operand` (`asm.py` 75-77). -/
def branch_mnemonics : List String :=
  ["BCC", "BCS", "BEQ", "BMI", "BNE", "BPL", "BVC", "BVS"]

/-- The body of `Assembler.parse_operand` after its initial
`operand = operand.strip()` rebinding (`asm.py` 20): classify a
stripped operand string.  The source's early-return ladder (each rule
with its own inner guard falling through when the guard fails) becomes
one if-chain whose guard is the conjunction of the rule's
conditions. -/
def parse_operand_stripped (operand : List Char) (mnemonic : Option String) :
    AddrType × Option (List Char) :=
  -- immediate
  if pyStartsWith operand ['#'] then
    (.IMM, some (operand.drop 1))
  -- indirect,X
  else if pyStartsWith operand ['('] && pyEndsWith operand [',', 'X', ')'] then
    (.INDX, some ((operand.drop 1).take (operand.length - 4)))
  -- (indirect),Y
  else if pyStartsWith operand ['('] && pyEndsWith operand [')', ',', 'Y'] then
    (.INDY, some ((operand.drop 1).take (operand.length - 4)))
  -- indirect JMP
  else if pyStartsWith operand ['('] && pyEndsWith operand [')'] then
    (.IND, some ((operand.drop 1).take (operand.length - 2)))
  -- absolute,X (`value = operand[:-2]`)
  else if pyEndsWith operand [',', 'X'] &&
      (pyStartsWith (dropEnd operand 2) ['$'] || pyIsDigit (dropEnd operand 2)
        || pyIsIdent (dropEnd operand 2)) then
    (.ABSX, some (pyStrip (dropEnd operand 2)))
  -- absolute,Y
  else if pyEndsWith operand [',', 'Y'] &&
      (pyStartsWith (dropEnd operand 2) ['$'] || pyIsDigit (dropEnd operand 2)
        || pyIsIdent (dropEnd operand 2)) then
    (.ABSY, some (pyStrip (dropEnd operand 2)))
  -- zero page,X
  else if pyEndsWith operand [',', 'X'] &&
      (pyStartsWith (dropEnd operand 2) ['$']
        && (dropEnd operand 2).length ≤ 3) then
    (.ZPX, some (pyStrip (dropEnd operand 2)))
  -- zero page,Y
  else if pyEndsWith operand [',', 'Y'] &&
      (pyStartsWith (dropEnd operand 2) ['$']
        && (dropEnd operand 2).length ≤ 3) then
    (.ZPY, some (pyStrip (dropEnd operand 2)))
  -- accumulator
  else if pyUpper operand == ['A'] then
    (.ACC, none)
  -- implied
  else if operand.isEmpty then
    (.IMPLIED, none)
  -- branch instructions
  else if (match mnemonic with
           | some m => branch_mnemonics.contains m
           | none => false) && pyIsIdent operand then
    (.REL, some operand)
  -- absolute or zero page
  else if pyStartsWith operand ['$'] then
    if operand.length ≤ 3 then (.ZP, some operand) else (.ABS, some operand)
  -- decimal
  else if pyIsDigit operand then
    if digitsToNat operand < 0x100 then (.ZP, some operand)
    else (.ABS, some operand)
  -- label expressions like LABEL+1 or LABEL-1
  else if (matchLabelExpr operand).isSome then
    (.ABS, some operand)
  -- label (for all other cases)
  else if pyIsIdent operand then
    (.ABS, some operand)
  -- fallback
  else
    (.BYTE, some operand)

/-- `Assembler.parse_operand(operand, mnemonic)` (`asm.py` 18-107):
strip the operand, then classify. -/
def parse_operand (operand : List Char) (mnemonic : Option String) :
    AddrType × Option (List Char) :=
  parse_operand_stripped (pyStrip operand) mnemonic

/-- `Assembler.instr_size(addrtype)` (`asm.py` 240-257). -/
def instr_size (addrtype : AddrType) : Nat :=
  if addrtype = .IMPLIED || addrtype = .ACC then 1
  else if addrtype = .IMM then 2
  else if addrtype = .ZP || addrtype = .ZPX || addrtype = .ZPY ||
      addrtype = .INDX || addrtype = .INDY || addrtype = .REL then 2
  else if addrtype = .ABS || addrtype = .ABSX || addrtype = .ABSY ||
      addrtype = .IND then 3
  else if addrtype = .BYTE then 1
  else 1

/-! ## CPU dispatch table — `CPU._init_opcodes` (`cpu.py` 509-772)

Each assignment `self.opcode_table[byte] = lambda: self.MNEM(self.MODE())`
is transcribed as one `(byte, mnemonic, mode)` entry, in source order.
The mode records which addressing evaluator the closure invokes
(`IMPLIED` when the handler takes no operand, `ACC` for the
accumulator shift/rotate variants, `REL` for the branch handlers). -/

def cpuTable : List (Nat × String × AddrType) := [
  -- load accumulator: lda
  (0xA9, "LDA", AddrType.IMM), (0xA5, "LDA", AddrType.ZP), (0xB5, "LDA", AddrType.ZPX),
  (0xAD, "LDA", AddrType.ABS), (0xBD, "LDA", AddrType.ABSX), (0xB9, "LDA", AddrType.ABSY),
  (0xA1, "LDA", AddrType.INDX), (0xB1, "LDA", AddrType.INDY),
  -- load x register: ldx
  (0xA2, "LDX", AddrType.IMM), (0xA6, "LDX", AddrType.ZP), (0xB6, "LDX", AddrType.ZPY),
  (0xAE, "LDX", AddrType.ABS), (0xBE, "LDX", AddrType.ABSY),
  -- load y register: ldy
  (0xA0, "LDY", AddrType.IMM), (0xA4, "LDY", AddrType.ZP), (0xB4, "LDY", AddrType.ZPX),
  (0xAC, "LDY", AddrType.ABS), (0xBC, "LDY", AddrType.ABSX),
  -- store accumulator: sta
  (0x85, "STA", AddrType.ZP), (0x95, "STA", AddrType.ZPX), (0x8D, "STA", AddrType.ABS),
  (0x9D, "STA", AddrType.ABSX), (0x99, "STA", AddrType.ABSY), (0x81, "STA", AddrType.INDX),
  (0x91, "STA", AddrType.INDY),
  -- store x register: stx
  (0x86, "STX", AddrType.ZP), (0x96, "STX", AddrType.ZPY), (0x8E, "STX", AddrType.ABS),
  -- store y register: sty
  (0x84, "STY", AddrType.ZP), (0x94, "STY", AddrType.ZPX), (0x8C, "STY", AddrType.ABS),
  -- transfers: TAX, TAY, TXA, TYA, TSX, TXS
  (0xAA, "TAX", AddrType.IMPLIED), (0xA8, "TAY", AddrType.IMPLIED), (0x8A, "TXA", AddrType.IMPLIED),
  (0x98, "TYA", AddrType.IMPLIED), (0xBA, "TSX", AddrType.IMPLIED), (0x9A, "TXS", AddrType.IMPLIED),
  -- push/pull accumulator and status: PHA, PHP, PLA, PLP
  (0x48, "PHA", AddrType.IMPLIED), (0x08, "PHP", AddrType.IMPLIED),
  (0x68, "PLA", AddrType.IMPLIED), (0x28, "PLP", AddrType.IMPLIED),
  -- add with carry: ADC
  (0x69, "ADC", AddrType.IMM), (0x65, "ADC", AddrType.ZP), (0x75, "ADC", AddrType.ZPX),
  (0x6D, "ADC", AddrType.ABS), (0x7D, "ADC", AddrType.ABSX), (0x79, "ADC", AddrType.ABSY),
  (0x61, "ADC", AddrType.INDX), (0x71, "ADC", AddrType.INDY),
  -- subtract with carry: SBC
  (0xE9, "SBC", AddrType.IMM), (0xE5, "SBC", AddrType.ZP), (0xF5, "SBC", AddrType.ZPX),
  (0xED, "SBC", AddrType.ABS), (0xFD, "SBC", AddrType.ABSX), (0xF9, "SBC", AddrType.ABSY),
  (0xE1, "SBC", AddrType.INDX), (0xF1, "SBC", AddrType.INDY),
  -- logical AND with accumulator: AND
  (0x29, "AND", AddrType.IMM), (0x25, "AND", AddrType.ZP), (0x35, "AND", AddrType.ZPX),
  (0x2D, "AND", AddrType.ABS), (0x3D, "AND", AddrType.ABSX), (0x39, "AND", AddrType.ABSY),
  (0x21, "AND", AddrType.INDX), (0x31, "AND", AddrType.INDY),
  -- Logical OR with accumulator: ORA
  (0x09, "ORA", AddrType.IMM), (0x05, "ORA", AddrType.ZP), (0x15, "ORA", AddrType.ZPX),
  (0x0D, "ORA", AddrType.ABS), (0x1D, "ORA", AddrType.ABSX), (0x19, "ORA", AddrType.ABSY),
  (0x01, "ORA", AddrType.INDX), (0x11, "ORA", AddrType.INDY),
  -- exclusive OR with accumulator: EOR
  (0x49, "EOR", AddrType.IMM), (0x45, "EOR", AddrType.ZP), (0x55, "EOR", AddrType.ZPX),
  (0x4D, "EOR", AddrType.ABS), (0x5D, "EOR", AddrType.ABSX), (0x59, "EOR", AddrType.ABSY),
  (0x41, "EOR", AddrType.INDX), (0x51, "EOR", AddrType.INDY),
  -- compare accumulator: CMP
  (0xC9, "CMP", AddrType.IMM), (0xC5, "CMP", AddrType.ZP), (0xD5, "CMP", AddrType.ZPX),
  (0xCD, "CMP", AddrType.ABS), (0xDD, "CMP", AddrType.ABSX), (0xD9, "CMP", AddrType.ABSY),
  (0xC1, "CMP", AddrType.INDX), (0xD1, "CMP", AddrType.INDY),
  -- compare X register: CPX
  (0xE0, "CPX", AddrType.IMM), (0xE4, "CPX", AddrType.ZP), (0xEC, "CPX", AddrType.ABS),
  -- compare Y register: CPY
  (0xC0, "CPY", AddrType.IMM), (0xC4, "CPY", AddrType.ZP), (0xCC, "CPY", AddrType.ABS),
  -- increment memory: INC
  (0xE6, "INC", AddrType.ZP), (0xF6, "INC", AddrType.ZPX), (0xEE, "INC", AddrType.ABS),
  (0xFE, "INC", AddrType.ABSX),
  -- increment X or Y register: INX, INY
  (0xE8, "INX", AddrType.IMPLIED), (0xC8, "INY", AddrType.IMPLIED),
  -- decrement memory: DEC
  (0xC6, "DEC", AddrType.ZP), (0xD6, "DEC", AddrType.ZPX), (0xCE, "DEC", AddrType.ABS),
  (0xDE, "DEC", AddrType.ABSX),
  -- decrement X or Y register: DEX, DEY
  (0xCA, "DEX", AddrType.IMPLIED), (0x88, "DEY", AddrType.IMPLIED),
  -- arithmetic shift left: ASL
  (0x0A, "ASL", AddrType.ACC), (0x06, "ASL", AddrType.ZP), (0x16, "ASL", AddrType.ZPX),
  (0x0E, "ASL", AddrType.ABS), (0x1E, "ASL", AddrType.ABSX),
  -- logical shift right: LSR
  (0x4A, "LSR", AddrType.ACC), (0x46, "LSR", AddrType.ZP), (0x56, "LSR", AddrType.ZPX),
  (0x4E, "LSR", AddrType.ABS), (0x5E, "LSR", AddrType.ABSX),
  -- rotate left: ROL
  (0x2A, "ROL", AddrType.ACC), (0x26, "ROL", AddrType.ZP), (0x36, "ROL", AddrType.ZPX),
  (0x2E, "ROL", AddrType.ABS), (0x3E, "ROL", AddrType.ABSX),
  -- rotate right: ROR
  (0x6A, "ROR", AddrType.ACC), (0x66, "ROR", AddrType.ZP), (0x76, "ROR", AddrType.ZPX),
  (0x6E, "ROR", AddrType.ABS), (0x7E, "ROR", AddrType.ABSX),
  -- bit test: BIT
  (0x89, "BIT", AddrType.IMM), (0x24, "BIT", AddrType.ZP), (0x2C, "BIT", AddrType.ABS),
  -- jump to address: JMP
  (0x4C, "JMP", AddrType.ABS), (0x6C, "JMP", AddrType.IND),
  -- JSR, RTS, RTI, BRK
  (0x20, "JSR", AddrType.ABS), (0x60, "RTS", AddrType.IMPLIED), (0x40, "RTI", AddrType.IMPLIED),
  (0x00, "BRK", AddrType.IMPLIED),
  -- no operation: NOP
  (0xEA, "NOP", AddrType.IMPLIED),
  -- flag operations: CLC, SEC, CLI, SEI, CLV, CLD, SED
  (0x18, "CLC", AddrType.IMPLIED), (0x38, "SEC", AddrType.IMPLIED), (0x58, "CLI", AddrType.IMPLIED),
  (0x78, "SEI", AddrType.IMPLIED), (0xB8, "CLV", AddrType.IMPLIED), (0xD8, "CLD", AddrType.IMPLIED),
  (0xF8, "SED", AddrType.IMPLIED),
  -- branch instructions: BCC, BCS, BEQ, BMI, BNE, BPL, BVC, BVS
  (0x90, "BCC", AddrType.REL), (0xB0, "BCS", AddrType.REL), (0xF0, "BEQ", AddrType.REL),
  (0x30, "BMI", AddrType.REL), (0xD0, "BNE", AddrType.REL), (0x10, "BPL", AddrType.REL),
  (0x50, "BVC", AddrType.REL), (0x70, "BVS", AddrType.REL)]

/-- `opcode_table` lookup, `self.opcode_table[opcode]` as a partial map:
the `(mnemonic, mode)` pair the dispatch entry at an opcode byte
executes, or `none` when the byte is unmapped. -/
def cpuDecode (opcode : Nat) : Option (String × AddrType) :=
  (cpuTable.find? (fun e => e.1 == opcode)).map (·.2)

/-! ## Opcode matrix — `src/core/asm/opcodes.py` (not present in src)

The assembler looks opcodes up in `OPCODES` by string keys that
`Assembler.encode_instr` builds from the mnemonic and addressing mode
(`asm.py` 372-454). -/

/-- The key `encode_instr` builds for a `(mnemonic, mode)` pair:
`f"{mnemonic}_IMM"` … `f"{mnemonic}_ACC"`, and the bare mnemonic for
`IMPLIED`, `REL` and `BYTE` (`asm.py` 378-445).  `LABEL` never reaches
a key in the source (`encode_instr` raises first); it is given the bare
mnemonic here and is never used. -/
def asmKey (mnemonic : String) (t : AddrType) : String :=
  match t with
  | .IMM => mnemonic ++ "_IMM"
  | .ZP => mnemonic ++ "_ZP"
  | .ZPX => mnemonic ++ "_ZPX"
  | .ZPY => mnemonic ++ "_ZPY"
  | .ABS => mnemonic ++ "_ABS"
  | .ABSX => mnemonic ++ "_ABSX"
  | .ABSY => mnemonic ++ "_ABSY"
  | .IND => mnemonic ++ "_IND"
  | .INDX => mnemonic ++ "_INDX"
  | .INDY => mnemonic ++ "_INDY"
  | .ACC => mnemonic ++ "_ACC"
  | .IMPLIED => mnemonic
  | .REL => mnemonic
  | .BYTE => mnemonic
  | .LABEL => mnemonic

/-- Modelled from the spec: the `OPCODES` dict of
`src/core/asm/opcodes.py`, whose source file is not under `src/`.
Spec §4.1: the opcode matrix is the single source of truth consulted by
both the CPU (byte → handler) and the assembler (mnemonic+mode → byte),
so the map from `encode_instr`-style keys to opcode bytes is the CPU
dispatch table keyed the way `encode_instr` builds its keys. -/
def OPCODES : List (String × Nat) :=
  cpuTable.map (fun e => (asmKey e.2.1 e.2.2, e.1))

/-- Dict lookup `OPCODES[key]` with membership test `key in OPCODES`. -/
def opcodesLookup (key : String) : Option Nat :=
  (OPCODES.find? (fun e => e.1 == key)).map (·.2)

/-! ## Value resolver — `Assembler.resolve_value` (`asm.py` 332-369) -/

/-- The assembler's error taxonomy: `unknownLabel`/`unknownValue` are the
`ValueError`s `resolve_value` raises, `encodingErr` the missing-opcode
`ValueError` of `encode_instr`, `unknownMode` its unknown-addressing-mode
`ValueError`, `indexErr` a Python `IndexError` from a bytearray store,
`pyErr` any other Python-level error (`ord` on a non-single-char string,
tuple-unpack failure, invalid `int()` literal, non-ASCII encode). -/
inductive AsmErr where
  | unknownValue | unknownLabel | encodingErr | unknownMode | indexErr | pyErr
deriving DecidableEq, Repr

/-- The ASCII apostrophe (written by code so the source file avoids a
bare quote character in a literal). -/
def squote : Char := Char.ofNat 39

/-- The label table: case-sensitive identifier → 16-bit address
(`self.labels`). -/
def LabelMap := List (List Char × Nat)

/-- Dict lookup `self.labels[name]` / membership `name in self.labels`. -/
def labelLookup (labels : LabelMap) (name : List Char) : Option Nat :=
  (labels.find? (fun e => e.1 == name)).map (·.2)

/-- The char-literal guard of `resolve_value` (`asm.py` 336):
`len(val) >= 2 and val[0] == "'" and val[-1] == "'"`. -/
def charLitCond (val : List Char) : Bool :=
  2 ≤ val.length && val.head? == some squote && val.getLast? == some squote

/-- `ord(val[1:-1])`: the code point when the inner text is one
character, otherwise the `TypeError` Python raises. -/
def charLitVal (val : List Char) : Except AsmErr Int :=
  match (val.drop 1).take (val.length - 2) with
  | [c] => .ok (c.toNat : Int)
  | _ => .error .pyErr

/-- `Assembler.resolve_value` (`asm.py` 332-369) on a comma-free value:
the char-literal rule, the `IDENT±N` expression rule, `$hex`, decimal,
label lookup, and the final `Unknown value` error.  `resolve_value`
below adds the comma rule (`asm.py` 340-342) on top; the recursive call
that rule makes lands here because the text before the first comma
contains no comma, so the comma rule can never fire twice. -/
def resolve_value_nc (labels : LabelMap) (val0 : List Char) :
    Except AsmErr Int :=
  let val := pyStrip val0
  if charLitCond val then charLitVal val
  else match matchLabelExpr val with
  | some (base_label, isPlus, digits) =>
    match labelLookup labels base_label with
    | some base_addr =>
      if isPlus then .ok ((base_addr : Int) + digitsToNat digits)
      else .ok ((base_addr : Int) - digitsToNat digits)
    | none => .error .unknownLabel
  | none =>
    if pyStartsWith val ['$'] then
      match parseHex (val.drop 1) with
      | some v => .ok (v : Int)
      | none => .error .pyErr
    else if pyIsDigit val then .ok (digitsToNat val : Int)
    else match labelLookup labels val with
    | some a => .ok (a : Int)
    | none => .error .unknownValue

/-- `Assembler.resolve_value` (`asm.py` 332-369).  The comma rule splits
`base, reg = val.split(',')` — exactly one comma, else Python's unpack
raises — and recurses on the stripped base. -/
def resolve_value (labels : LabelMap) (val0 : List Char) :
    Except AsmErr Int :=
  let val := pyStrip val0
  if charLitCond val then charLitVal val
  else if val.contains ',' then
    if val.count ',' == 1 then
      resolve_value_nc labels (pyStrip (val.takeWhile (fun c => !(c == ','))))
    else .error .pyErr
  else resolve_value_nc labels val

/-! ## Instruction encoder — `Assembler.encode_instr` (`asm.py` 372-454) -/

/-- Little-endian operand bytes `bytes([v & 0xFF])` for a 1-byte
operand; Python's `&` on a possibly negative int is `Int.emod`. -/
def byte1 (v : Int) : List Nat := [(v.emod 256).toNat]

/-- `bytes([v & 0xFF, (v >> 8) & 0xFF])` for a 2-byte operand;
Python's arithmetic right shift is flooring division, `Int.ediv`. -/
def byte2 (v : Int) : List Nat :=
  [(v.emod 256).toNat, ((v.ediv 256).emod 256).toNat]

/-- `Assembler.encode_instr(mnemonic, addrtype, value, pc)`
(`asm.py` 372-454): build the `OPCODES` key, resolve the operand into
its byte string, look the opcode byte up. -/
def encode_instr (labels : LabelMap) (mnemonic : String)
    (addrtype : AddrType) (value : Option (List Char)) (pc : Nat) :
    Except AsmErr (Nat × List Nat) := do
  let resolved : Option (List Char) → Except AsmErr Int := fun v =>
    match v with
    | some s => resolve_value labels s
    | none => .error .pyErr  -- Python would crash stripping None
  let (key, operand_bytes) ←
    (match addrtype with
     | .IMM => do pure (asmKey mnemonic .IMM, byte1 (← resolved value))
     | .ZP => do pure (asmKey mnemonic .ZP, byte1 (← resolved value))
     | .ZPX => do pure (asmKey mnemonic .ZPX, byte1 (← resolved value))
     | .ZPY => do pure (asmKey mnemonic .ZPY, byte1 (← resolved value))
     | .ABS => do pure (asmKey mnemonic .ABS, byte2 (← resolved value))
     | .ABSX => do pure (asmKey mnemonic .ABSX, byte2 (← resolved value))
     | .ABSY => do pure (asmKey mnemonic .ABSY, byte2 (← resolved value))
     | .IND => do pure (asmKey mnemonic .IND, byte2 (← resolved value))
     | .INDX => do pure (asmKey mnemonic .INDX, byte1 (← resolved value))
     | .INDY => do pure (asmKey mnemonic .INDY, byte1 (← resolved value))
     | .ACC => pure (asmKey mnemonic .ACC, [])
     | .IMPLIED => pure (mnemonic, [])
     | .REL =>
       (match value.bind (labelLookup labels) with
        | some target =>
          let offset := ((target : Int) - ((pc : Int) + 2)).emod 256
          pure (mnemonic, [offset.toNat])
        | none => .error .unknownLabel)
     | .BYTE => pure (mnemonic, [])
     | .LABEL => .error .unknownMode)
  match opcodesLookup key with
  | some opcode => pure (opcode, operand_bytes)
  | none => .error .encodingErr

/-! ## Parsed lines and Python bytearray stores -/

/-- The tagged tuples `Assembler.parse_line` produces (`asm.py`
110-160) as stored in `self._lines` by the first pass — only the
parsed component is consumed by `second_pass`. -/
inductive Parsed where
  | label (name : List Char)
  | org (value : Nat)
  | word (vals : List (List Char))
  | byte (vals : List (List Char))
  | res (n : Nat)
  | str (s : List Char) (nullterm : Bool)
  | instr (mnemonic : String) (operand : List Char)
deriving DecidableEq, Repr

/-- Normalise one Python slice endpoint against a buffer of length `n`:
negative endpoints count from the end, then clamp into `[0, n]`. -/
def pySliceIdx (n : Nat) (i : Int) : Nat :=
  if i < 0 then (if i + n < 0 then 0 else (i + n).toNat) else min i.toNat n

/-- Python bytearray slice assignment `buf[a:b] = xs`: replace the
normalised slice with `xs`, resizing the buffer when the lengths
differ.  Never raises. -/
def pySetSlice (buf : List Nat) (a b : Int) (xs : List Nat) : List Nat :=
  buf.take (pySliceIdx buf.length a) ++ xs ++
    buf.drop (max (pySliceIdx buf.length a) (pySliceIdx buf.length b))

/-- Python bytearray item assignment `buf[i] = v`: a negative index
counts from the end; an index out of `[-len, len)` raises `IndexError`
(`none`). -/
def pySetItem (buf : List Nat) (i : Int) (v : Nat) : Option (List Nat) :=
  let j := if i < 0 then i + buf.length else i
  if 0 ≤ j ∧ j < buf.length then some (buf.set j.toNat v) else none

/-- Python prefix slice `buf[:e]`. -/
def pyPrefix (buf : List Nat) (e : Int) : List Nat :=
  buf.take (pySliceIdx buf.length e)

/-- The `unicode_escape`-decode + `ascii`-encode of `.string` payloads
(`asm.py` 311), modelled for the standard escapes
`\n \r \t \\ \" \' \0`; any other escaped character passes through as
backslash + character, a trailing backslash and any non-ASCII byte
raise. -/
def decodeEscapes (s : List Char) : Except AsmErr (List Nat) :=
  match s with
  | [] => .ok []
  | '\\' :: [] => .error .pyErr
  | '\\' :: e :: rest => do
    let tail ← decodeEscapes rest
    let code : Option Nat :=
      if e = 'n' then some 10 else if e = 'r' then some 13
      else if e = 't' then some 9 else if e = '\\' then some 92
      else if e = '"' then some 34 else if e = squote then some 39
      else if e = '0' then some 0 else none
    match code with
    | some b => pure (b :: tail)
    | none =>
      if e.toNat ≤ 127 then pure (92 :: e.toNat :: tail) else .error .pyErr
  | c :: rest => do
    let tail ← decodeEscapes rest
    if c.toNat ≤ 127 then pure (c.toNat :: tail) else .error .pyErr

/-- `.string` payload to bytes (`asm.py` 310-314): escape-decode a
double-quoted literal, otherwise ASCII-encode the raw token. -/
def stringBytes (s : List Char) : Except AsmErr (List Nat) :=
  if pyStartsWith s ['"'] && pyEndsWith s ['"'] then
    decodeEscapes ((s.drop 1).take (s.length - 2))
  else  -- bare tokens are ASCII-encoded with no escape processing
    s.foldrM (fun c acc =>
      if c.toNat ≤ 127 then pure (c.toNat :: acc) else .error .pyErr) []

/-! ## Second pass — `Assembler.second_pass` (`asm.py` 260-329) -/

/-- The loop state of `second_pass`: the output bytearray, the program
counter and the running `max_written` (an `Int` because it is compared
with possibly negative buffer offsets). -/
structure P2State where
  output : List Nat
  pc : Nat
  maxWritten : Int
deriving Repr

/-- The `.word` emission loop of `second_pass` (`asm.py` 278-284):
resolve each value, store its two little-endian bytes at
`pc - origin`, advance. -/
def emit_words (labels : LabelMap) (origin : Nat) :
    List (List Char) → P2State → Except AsmErr P2State
  | [], st => .ok st
  | val :: rest, st => do
    let addr_val ← resolve_value labels val
    let offset : Int := (st.pc : Int) - (origin : Int)
    let out := pySetSlice st.output offset (offset + 2) (byte2 addr_val)
    emit_words labels origin rest
      { output := out, pc := st.pc + 2,
        maxWritten := max st.maxWritten (offset + 2) }

/-- The `.byte` emission loop of `second_pass` (`asm.py` 286-292). -/
def emit_bytes (labels : LabelMap) (origin : Nat) :
    List (List Char) → P2State → Except AsmErr P2State
  | [], st => .ok st
  | val :: rest, st => do
    let b ← resolve_value labels val
    let offset : Int := (st.pc : Int) - (origin : Int)
    match pySetItem st.output offset (b.emod 256).toNat with
    | some out =>
      emit_bytes labels origin rest
        { output := out, pc := st.pc + 1,
          maxWritten := max st.maxWritten (offset + 1) }
    | none => .error .indexErr

/-- One iteration of the `second_pass` line loop (`asm.py` 268-325),
with Python's store semantics (`pySetItem` / `pySetSlice`). -/
def second_pass_line (labels : LabelMap) (origin : Nat) (parsed : Parsed)
    (st : P2State) : Except AsmErr P2State :=
  match parsed with
  | .label _ => .ok st
  | .org v => .ok { st with pc := v }
  | .word vals => emit_words labels origin vals st
  | .byte vals => emit_bytes labels origin vals st
  | .res n => .ok { st with pc := st.pc + n }
  | .instr mnem op => do
    let (at_, value) := parse_operand op (some mnem)
    let (opcode, ops) ← encode_instr labels mnem at_ value st.pc
    let offset : Int := (st.pc : Int) - (origin : Int)
    match pySetItem st.output offset opcode with
    | some out1 =>
      let out2 := pySetSlice out1 (offset + 1) (offset + 1 + ops.length) ops
      pure { output := out2, pc := st.pc + 1 + ops.length,
             maxWritten := max st.maxWritten (offset + 1 + ops.length) }
    | none => .error .indexErr
  | .str s nullterm => do
    let bytestr ← stringBytes s
    let offset : Int := (st.pc : Int) - (origin : Int)
    let out := pySetSlice st.output offset (offset + bytestr.length) bytestr
    let st := { output := out, pc := st.pc + bytestr.length,
                maxWritten := max st.maxWritten (offset + bytestr.length) }
    if nullterm then
      let offset : Int := (st.pc : Int) - (origin : Int)
      match pySetItem st.output offset 0 with
      | some out =>
        pure { output := out, pc := st.pc + 1,
               maxWritten := max st.maxWritten (offset + 1) }
      | none => .error .indexErr
    else pure st

/-- The `second_pass` line loop over the stored lines. -/
def second_pass_lines (labels : LabelMap) (origin : Nat) :
    List Parsed → P2State → Except AsmErr P2State
  | [], st => .ok st
  | p :: rest, st => do
    second_pass_lines labels origin rest (← second_pass_line labels origin p st)

/-- `Assembler.second_pass` (`asm.py` 260-329): preallocate a
`0x10000 - origin` buffer, walk the stored lines, return the image
prefix `output[:max(pc - origin, max_written)]` together with the final
state (the full buffer survives in `self.output` in the source). -/
def second_pass (labels : LabelMap) (origin : Nat) (lines : List Parsed) :
    Except AsmErr (List Nat × P2State) := do
  let SIZE := 0x10000 - origin
  let st0 : P2State := { output := List.replicate SIZE 0, pc := origin,
                         maxWritten := 0 }
  let st ← second_pass_lines labels origin lines st0
  let e : Int := max ((st.pc : Int) - (origin : Int)) st.maxWritten
  pure (pyPrefix st.output e, st)

/-! ### Bounds-checked shadow of the second pass

Stated from the spec's words for the safety claim: identical to
`second_pass` except that every buffer store must land inside the
preallocated buffer — a non-negative offset with the whole written
range below the buffer size — and any other store is an error. -/

/-- A store `buf[i] = v` that insists `0 ≤ i < len` (no end-relative
indexing). -/
def checkedSetItem (buf : List Nat) (i : Int) (v : Nat) :
    Option (List Nat) :=
  if 0 ≤ i ∧ i < buf.length then some (buf.set i.toNat v) else none

/-- A store `buf[a:a+len xs] = xs` that insists the whole range lies
inside the buffer (never resizes). -/
def checkedSetSlice (buf : List Nat) (a : Int) (xs : List Nat) :
    Option (List Nat) :=
  if 0 ≤ a ∧ a + xs.length ≤ buf.length then
    some (buf.take a.toNat ++ xs ++ buf.drop (a.toNat + xs.length))
  else none

/-- `emit_words` with checked stores. -/
def emit_words_checked (labels : LabelMap) (origin : Nat) :
    List (List Char) → P2State → Except AsmErr P2State
  | [], st => .ok st
  | val :: rest, st => do
    let addr_val ← resolve_value labels val
    let offset : Int := (st.pc : Int) - (origin : Int)
    match checkedSetSlice st.output offset (byte2 addr_val) with
    | some out =>
      emit_words_checked labels origin rest
        { output := out, pc := st.pc + 2,
          maxWritten := max st.maxWritten (offset + 2) }
    | none => .error .indexErr

/-- `emit_bytes` with checked stores. -/
def emit_bytes_checked (labels : LabelMap) (origin : Nat) :
    List (List Char) → P2State → Except AsmErr P2State
  | [], st => .ok st
  | val :: rest, st => do
    let b ← resolve_value labels val
    let offset : Int := (st.pc : Int) - (origin : Int)
    match checkedSetItem st.output offset (b.emod 256).toNat with
    | some out =>
      emit_bytes_checked labels origin rest
        { output := out, pc := st.pc + 1,
          maxWritten := max st.maxWritten (offset + 1) }
    | none => .error .indexErr

/-- `second_pass_line` with every store bounds-checked. -/
def second_pass_line_checked (labels : LabelMap) (origin : Nat)
    (parsed : Parsed) (st : P2State) : Except AsmErr P2State :=
  match parsed with
  | .label _ => .ok st
  | .org v => .ok { st with pc := v }
  | .word vals => emit_words_checked labels origin vals st
  | .byte vals => emit_bytes_checked labels origin vals st
  | .res n => .ok { st with pc := st.pc + n }
  | .instr mnem op => do
    let (at_, value) := parse_operand op (some mnem)
    let (opcode, ops) ← encode_instr labels mnem at_ value st.pc
    let offset : Int := (st.pc : Int) - (origin : Int)
    match checkedSetItem st.output offset opcode with
    | some out1 =>
      match checkedSetSlice out1 (offset + 1) ops with
      | some out2 =>
        pure { output := out2, pc := st.pc + 1 + ops.length,
               maxWritten := max st.maxWritten (offset + 1 + ops.length) }
      | none => .error .indexErr
    | none => .error .indexErr
  | .str s nullterm => do
    let bytestr ← stringBytes s
    let offset : Int := (st.pc : Int) - (origin : Int)
    match checkedSetSlice st.output offset bytestr with
    | none => .error .indexErr
    | some out =>
      let st := { output := out, pc := st.pc + bytestr.length,
                  maxWritten := max st.maxWritten (offset + bytestr.length) }
      if nullterm then
        let offset : Int := (st.pc : Int) - (origin : Int)
        match checkedSetItem st.output offset 0 with
        | some out =>
          pure { output := out, pc := st.pc + 1,
                 maxWritten := max st.maxWritten (offset + 1) }
        | none => .error .indexErr
      else pure st

/-- The checked line loop. -/
def second_pass_lines_checked (labels : LabelMap) (origin : Nat) :
    List Parsed → P2State → Except AsmErr P2State
  | [], st => .ok st
  | p :: rest, st => do
    second_pass_lines_checked labels origin rest
      (← second_pass_line_checked labels origin p st)

/-- `second_pass` with every store bounds-checked. -/
def second_pass_checked (labels : LabelMap) (origin : Nat)
    (lines : List Parsed) : Except AsmErr (List Nat × P2State) := do
  let SIZE := 0x10000 - origin
  let st0 : P2State := { output := List.replicate SIZE 0, pc := origin,
                         maxWritten := 0 }
  let st ← second_pass_lines_checked labels origin lines st0
  let e : Int := max ((st.pc : Int) - (origin : Int)) st.maxWritten
  pure (pyPrefix st.output e, st)

/-- The program counter after one line of the second pass, as tracked
by the safety hypothesis (`.org` jumps, emitting lines advance by their
byte count). -/
def nextPc (p : Parsed) (pc : Nat) : Nat :=
  match p with
  | .label _ => pc
  | .org v => v
  | .word vals => pc + 2 * vals.length
  | .byte vals => pc + vals.length
  | .res n => pc + n
  | .instr mnem op => pc + instr_size (parse_operand op (some mnem)).1
  | .str s nullterm =>
    match stringBytes s with
    | .ok bs => pc + bs.length + (if nullterm then 1 else 0)
    | .error _ => pc

/-- One line's store constraint: every `.org` target at or above the
origin, every emitted byte at an address below `$10000`. -/
def lineStoreOk (origin pc : Nat) (p : Parsed) : Bool :=
  match p with
  | .label _ => true
  | .org v => decide (origin ≤ v)
  | .word vals => decide (pc + 2 * vals.length ≤ 0x10000)
  | .byte vals => decide (pc + vals.length ≤ 0x10000)
  | .res _ => true
  | .instr mnem op =>
    decide (pc + instr_size (parse_operand op (some mnem)).1 ≤ 0x10000)
  | .str s nullterm =>
    match stringBytes s with
    | .ok bs => decide (pc + bs.length + (if nullterm then 1 else 0) ≤ 0x10000)
    | .error _ => true  -- the pass aborts on this line before storing

/-- The decidable hypothesis of the safety claim, computed along the
line walk: every `.org` directive's target is at or above the origin
and every emitted byte lands at an address below `$10000` (so inside
the preallocated `0x10000 - origin` buffer).  Errors of resolution or
encoding may still abort the pass; this predicate constrains only
where stores land. -/
def storesInBounds (origin : Nat) : Nat → List Parsed → Bool
  | _, [] => true
  | pc, p :: rest =>
    lineStoreOk origin pc p && storesInBounds origin (nextPc p pc) rest

/-! ## Memory fabric — `src/core/components/mem.py`

Handlers are arbitrary Python callables whose side effects live outside
the emulated state: a write handler's invocation is recorded as an
event `(address, masked value)` in the result of `write`; a read
handler is modelled as the pure function `address → byte` it returns
into the data path. -/

/-- `Memory`: the 64 KiB byte store (`self.data`, total over `Nat` and
consulted only at masked addresses), the read-handler map and the
write-handler registration set. -/
structure Memory where
  data : Nat → Nat
  readHandlers : Nat → Option (Nat → Nat)
  writeHandlers : Nat → Bool

/-- `Memory.read(addr)` (`mem.py` 27-32): mask the address, consult the
read-handler map, else return the backing byte. -/
def Memory.read (m : Memory) (addr : Nat) : Nat :=
  let addr := addr &&& 0xFFFF
  match m.readHandlers addr with
  | some h => h addr
  | none => m.data addr

/-- `Memory.write(addr, val)` (`mem.py` 34-44): mask the address; a
registered write handler receives `val & 0xFF` and the write returns at
once (the event is the second component); a ROM-window address drops
the write; otherwise the backing byte is set to `val & 0xFF`.
`BASIC_ROM_START = 0xA000`, `KERNAL_ROM_START = 0xE000`, each
`0x2000` long. -/
def Memory.write (m : Memory) (addr val : Nat) :
    Memory × Option (Nat × Nat) :=
  let addr := addr &&& 0xFFFF
  if m.writeHandlers addr then (m, some (addr, val &&& 0xFF))
  else if 0xA000 ≤ addr ∧ addr < 0xA000 + 0x2000 then (m, none)
  else if 0xE000 ≤ addr ∧ addr < 0xE000 + 0x2000 then (m, none)
  else ({ m with data := fun a => if a = addr then val &&& 0xFF else m.data a },
        none)

/-- `Memory.load_rom(code, base)` (`mem.py` 47-50): copy bytes into the
backing array unconditionally (no masking, no ROM guard). -/
def Memory.load_rom (m : Memory) (code : List Nat) (base : Nat) : Memory :=
  { m with data := fun a =>
      if h : base ≤ a ∧ a - base < code.length then code.get ⟨a - base, h.2⟩
      else m.data a }

/-- `Memory.register_write_handler(addr, handler)` (`mem.py` 57-59):
bind (the presence of) a handler at the masked address; rebinding
replaces. -/
def Memory.register_write_handler (m : Memory) (addr : Nat) : Memory :=
  { m with writeHandlers := fun a =>
      if a = (addr &&& 0xFFFF) then true else m.writeHandlers a }

/-- `Memory.register_read_handler(addr, handler)` (`mem.py` 53-55). -/
def Memory.register_read_handler (m : Memory) (addr : Nat)
    (handler : Nat → Nat) : Memory :=
  { m with readHandlers := fun a =>
      if a = (addr &&& 0xFFFF) then some handler else m.readHandlers a }

/-! ## CPU — `src/core/components/cpu.py` -/

/-- The `Flag` bit constants (`cpu.py` 3-12). -/
def FlagC : Nat := 0x01
/-- Zero flag bit. -/
def FlagZ : Nat := 0x02
/-- Interrupt-disable flag bit. -/
def FlagI : Nat := 0x04
/-- Decimal-mode flag bit. -/
def FlagD : Nat := 0x08
/-- Break flag bit. -/
def FlagB : Nat := 0x10
/-- Unused (always-set) flag bit. -/
def FlagU : Nat := 0x20
/-- Overflow flag bit. -/
def FlagV : Nat := 0x40
/-- Negative flag bit. -/
def FlagN : Nat := 0x80

/-- The CPU register file plus its memory (`cpu.py` 14-31).  All
registers are Python ints; the code masks A/X/Y/SP on every mutation
and PC stays non-negative on every path the claims exercise, so `Nat`
models them. -/
structure CPU where
  A : Nat
  X : Nat
  Y : Nat
  SP : Nat
  PC : Nat
  P : Nat
  mem : Memory

namespace CPU

/-- `CPU.read(addr)` (`cpu.py` 35-37). -/
def read (c : CPU) (addr : Nat) : Nat :=
  c.mem.read (addr &&& 0xFFFF)

/-- `CPU.write(addr, value)` (`cpu.py` 39-41); the handler-invocation
event of the fabric is external to the emulated state and dropped. -/
def write (c : CPU) (addr value : Nat) : CPU :=
  { c with mem := (c.mem.write (addr &&& 0xFFFF) (value &&& 0xFF)).1 }

/-- `CPU.read_word(addr)` (`cpu.py` 43-47). -/
def read_word (c : CPU) (addr : Nat) : Nat :=
  let lo := c.read addr
  let hi := c.read (addr + 1)
  (hi <<< 8) ||| lo

/-- Python `(x - 1) & 0xFF` on a non-negative int: the subtraction can
go to `-1`, whose masking wraps to `0xFF`. -/
def decMask (x : Nat) : Nat :=
  (((x : Int) - 1).emod 256).toNat

/-- `CPU.push(value)` (`cpu.py` 63-66): `SP = (SP - 1) & 0xFF`. -/
def push (c : CPU) (value : Nat) : CPU :=
  let c := c.write (0x100 + c.SP) value
  { c with SP := decMask c.SP }

/-- `CPU.pull()` (`cpu.py` 68-71). -/
def pull (c : CPU) : Nat × CPU :=
  let c := { c with SP := (c.SP + 1) &&& 0xFF }
  (c.read (0x100 + c.SP), c)

/-- `CPU.set_flag(flag, cond)` on the status byte (`cpu.py` 75-80):
`P |= flag` / `P &= ~flag`.  On a non-negative int, Python's
`P &= ~flag` removes `flag`'s bits, which is `P - (P &&& flag)`. -/
def set_flag_bits (P flag : Nat) (cond : Bool) : Nat :=
  if cond then P ||| flag else P - (P &&& flag)

/-- `CPU.set_flag` as a state update. -/
def set_flag (c : CPU) (flag : Nat) (cond : Bool) : CPU :=
  { c with P := set_flag_bits c.P flag cond }

/-- `CPU.get_flag(flag)` (`cpu.py` 82-84). -/
def get_flag (c : CPU) (flag : Nat) : Bool :=
  (c.P &&& flag) != 0

/-! ### Addressing-mode evaluators (`cpu.py` 88-166): each consumes its
operand bytes, advances PC, and returns a value (IMM) or an effective
address. -/

/-- `CPU.immediate()`. -/
def immediate (c : CPU) : Nat × CPU :=
  (c.read c.PC, { c with PC := c.PC + 1 })

/-- `CPU.zero_page()`. -/
def zero_page (c : CPU) : Nat × CPU :=
  (c.read c.PC, { c with PC := c.PC + 1 })

/-- `CPU.zero_page_x()`. -/
def zero_page_x (c : CPU) : Nat × CPU :=
  ((c.read c.PC + c.X) &&& 0xFF, { c with PC := c.PC + 1 })

/-- `CPU.zero_page_y()`. -/
def zero_page_y (c : CPU) : Nat × CPU :=
  ((c.read c.PC + c.Y) &&& 0xFF, { c with PC := c.PC + 1 })

/-- `CPU.absolute()`. -/
def absolute (c : CPU) : Nat × CPU :=
  (c.read_word c.PC, { c with PC := c.PC + 2 })

/-- `CPU.absolute_x()`. -/
def absolute_x (c : CPU) : Nat × CPU :=
  ((c.read_word c.PC + c.X) &&& 0xFFFF, { c with PC := c.PC + 2 })

/-- `CPU.absolute_y()`. -/
def absolute_y (c : CPU) : Nat × CPU :=
  ((c.read_word c.PC + c.Y) &&& 0xFFFF, { c with PC := c.PC + 2 })

/-- `CPU.indirect()` with the emulated 6502 page-wrap bug. -/
def indirect (c : CPU) : Nat × CPU :=
  let ptr := c.read_word c.PC
  let c := { c with PC := c.PC + 2 }
  if ptr &&& 0xFF = 0xFF then
    ((c.read (ptr &&& 0xFF00) <<< 8) ||| c.read ptr, c)
  else
    ((c.read (ptr + 1) <<< 8) ||| c.read ptr, c)

/-- `CPU.indexed_indirect()` (INDX). -/
def indexed_indirect (c : CPU) : Nat × CPU :=
  let zp := (c.read c.PC + c.X) &&& 0xFF
  let c := { c with PC := c.PC + 1 }
  ((c.read ((zp + 1) &&& 0xFF) <<< 8) ||| c.read zp, c)

/-- `CPU.indirect_indexed()` (INDY). -/
def indirect_indexed (c : CPU) : Nat × CPU :=
  let zp := c.read c.PC
  let c := { c with PC := c.PC + 1 }
  (((c.read ((zp + 1) &&& 0xFF) <<< 8) ||| c.read zp) + c.Y, c)

/-- `CPU.relative()` (`cpu.py` 159-166): signed 8-bit displacement from
the PC after the operand byte.  The `Nat` subtraction in the backward
branch matches Python whenever `PC + offset ≥ 0x100`, which holds for
every branch whose target is a non-negative address. -/
def relative (c : CPU) : Nat × CPU :=
  let offset := c.read c.PC
  let c := { c with PC := c.PC + 1 }
  if offset < 0x80 then (c.PC + offset, c)
  else (c.PC + offset - 0x100, c)

/-! ### Instruction implementations (`cpu.py` 170-497).  Python int
truthiness in `set_flag(flag, expr)` becomes `decide (expr ≠ 0)`. -/

/-- `CPU.lda(value)`. -/
def lda (c : CPU) (value : Nat) : CPU :=
  let c := { c with A := value &&& 0xFF }
  let c := c.set_flag FlagZ (decide (c.A = 0))
  c.set_flag FlagN (decide (c.A &&& 0x80 ≠ 0))

/-- `CPU.ldx(value)`. -/
def ldx (c : CPU) (value : Nat) : CPU :=
  let c := { c with X := value &&& 0xFF }
  let c := c.set_flag FlagZ (decide (c.X = 0))
  c.set_flag FlagN (decide (c.X &&& 0x80 ≠ 0))

/-- `CPU.ldy(value)`. -/
def ldy (c : CPU) (value : Nat) : CPU :=
  let c := { c with Y := value &&& 0xFF }
  let c := c.set_flag FlagZ (decide (c.Y = 0))
  c.set_flag FlagN (decide (c.Y &&& 0x80 ≠ 0))

/-- `CPU.sta(addr)` / `stx` / `sty`. -/
def sta (c : CPU) (addr : Nat) : CPU := c.write addr c.A
/-- `CPU.stx(addr)`. -/
def stx (c : CPU) (addr : Nat) : CPU := c.write addr c.X
/-- `CPU.sty(addr)`. -/
def sty (c : CPU) (addr : Nat) : CPU := c.write addr c.Y

/-- `CPU.tax()`. -/
def tax (c : CPU) : CPU :=
  let c := { c with X := c.A }
  let c := c.set_flag FlagZ (decide (c.X = 0))
  c.set_flag FlagN (decide (c.X &&& 0x80 ≠ 0))

/-- `CPU.tay()`. -/
def tay (c : CPU) : CPU :=
  let c := { c with Y := c.A }
  let c := c.set_flag FlagZ (decide (c.Y = 0))
  c.set_flag FlagN (decide (c.Y &&& 0x80 ≠ 0))

/-- `CPU.txa()`. -/
def txa (c : CPU) : CPU :=
  let c := { c with A := c.X }
  let c := c.set_flag FlagZ (decide (c.A = 0))
  c.set_flag FlagN (decide (c.A &&& 0x80 ≠ 0))

/-- `CPU.tya()`. -/
def tya (c : CPU) : CPU :=
  let c := { c with A := c.Y }
  let c := c.set_flag FlagZ (decide (c.A = 0))
  c.set_flag FlagN (decide (c.A &&& 0x80 ≠ 0))

/-- `CPU.tsx()`. -/
def tsx (c : CPU) : CPU :=
  let c := { c with X := c.SP }
  let c := c.set_flag FlagZ (decide (c.X = 0))
  c.set_flag FlagN (decide (c.X &&& 0x80 ≠ 0))

/-- `CPU.txs()`. -/
def txs (c : CPU) : CPU := { c with SP := c.X }

/-- `CPU.pha()`. -/
def pha (c : CPU) : CPU := c.push c.A

/-- `CPU.php()`: pushes `P | B | U`. -/
def php (c : CPU) : CPU := c.push (c.P ||| FlagB ||| FlagU)

/-- `CPU.pla()`. -/
def pla (c : CPU) : CPU :=
  let (v, c) := c.pull
  let c := { c with A := v }
  let c := c.set_flag FlagZ (decide (c.A = 0))
  c.set_flag FlagN (decide (c.A &&& 0x80 ≠ 0))

/-- `CPU.plp()`: `P = (pull() & ~B) | U`. -/
def plp (c : CPU) : CPU :=
  let (v, c) := c.pull
  { c with P := (v - (v &&& FlagB)) ||| FlagU }

/-- `CPU.adc(value)` (`cpu.py` 256-264).  Python's `~(A ^ value)`
agrees with `(A ^^^ value) ^^^ 0xFF` at bit 7, the only bit `& 0x80`
keeps. -/
def adc (c : CPU) (value : Nat) : CPU :=
  let carry := if c.get_flag FlagC then 1 else 0
  let result := c.A + value + carry
  let c := c.set_flag FlagC (decide (result > 0xFF))
  let c := c.set_flag FlagZ (decide (result &&& 0xFF = 0))
  let c := c.set_flag FlagN (decide (result &&& 0x80 ≠ 0))
  let c := c.set_flag FlagV
    (decide ((((c.A ^^^ value) ^^^ 0xFF) &&& (c.A ^^^ result)) &&& 0x80 ≠ 0))
  { c with A := result &&& 0xFF }

/-- `CPU.sbc(value)` (`cpu.py` 266-275): `value ^= 0xFF`, then the ADC
body with the same overflow rule on the inverted operand. -/
def sbc (c : CPU) (value : Nat) : CPU :=
  let carry := if c.get_flag FlagC then 1 else 0
  let value := value ^^^ 0xFF
  let result := c.A + value + carry
  let c := c.set_flag FlagC (decide (result > 0xFF))
  let c := c.set_flag FlagZ (decide (result &&& 0xFF = 0))
  let c := c.set_flag FlagN (decide (result &&& 0x80 ≠ 0))
  let c := c.set_flag FlagV
    (decide ((((c.A ^^^ value) ^^^ 0xFF) &&& (c.A ^^^ result)) &&& 0x80 ≠ 0))
  { c with A := result &&& 0xFF }

/-- `CPU.and_(value)`. -/
def and_ (c : CPU) (value : Nat) : CPU :=
  let c := { c with A := c.A &&& value }
  let c := c.set_flag FlagZ (decide (c.A = 0))
  c.set_flag FlagN (decide (c.A &&& 0x80 ≠ 0))

/-- `CPU.ora(value)`. -/
def ora (c : CPU) (value : Nat) : CPU :=
  let c := { c with A := c.A ||| value }
  let c := c.set_flag FlagZ (decide (c.A = 0))
  c.set_flag FlagN (decide (c.A &&& 0x80 ≠ 0))

/-- `CPU.eor(value)`. -/
def eor (c : CPU) (value : Nat) : CPU :=
  let c := { c with A := c.A ^^^ value }
  let c := c.set_flag FlagZ (decide (c.A = 0))
  c.set_flag FlagN (decide (c.A &&& 0x80 ≠ 0))

/-- `CPU.cmp(value)` (`cpu.py` 297-302).  `temp = A - value` can be
negative in Python; `temp & 0xFF` and `temp & 0x80` only see
`temp mod 256`. -/
def cmp (c : CPU) (value : Nat) : CPU :=
  let temp : Int := (c.A : Int) - (value : Int)
  let c := c.set_flag FlagC (decide (value ≤ c.A))
  let c := c.set_flag FlagZ (decide (temp.emod 256 = 0))
  c.set_flag FlagN (decide ((temp.emod 256).toNat &&& 0x80 ≠ 0))

/-- `CPU.cpx(value)`. -/
def cpx (c : CPU) (value : Nat) : CPU :=
  let temp : Int := (c.X : Int) - (value : Int)
  let c := c.set_flag FlagC (decide (value ≤ c.X))
  let c := c.set_flag FlagZ (decide (temp.emod 256 = 0))
  c.set_flag FlagN (decide ((temp.emod 256).toNat &&& 0x80 ≠ 0))

/-- `CPU.cpy(value)`. -/
def cpy (c : CPU) (value : Nat) : CPU :=
  let temp : Int := (c.Y : Int) - (value : Int)
  let c := c.set_flag FlagC (decide (value ≤ c.Y))
  let c := c.set_flag FlagZ (decide (temp.emod 256 = 0))
  c.set_flag FlagN (decide ((temp.emod 256).toNat &&& 0x80 ≠ 0))

/-- `CPU.inc(addr)`. -/
def inc (c : CPU) (addr : Nat) : CPU :=
  let value := (c.read addr + 1) &&& 0xFF
  let c := c.write addr value
  let c := c.set_flag FlagZ (decide (value = 0))
  c.set_flag FlagN (decide (value &&& 0x80 ≠ 0))

/-- `CPU.inx()`. -/
def inx (c : CPU) : CPU :=
  let c := { c with X := (c.X + 1) &&& 0xFF }
  let c := c.set_flag FlagZ (decide (c.X = 0))
  c.set_flag FlagN (decide (c.X &&& 0x80 ≠ 0))

/-- `CPU.iny()`. -/
def iny (c : CPU) : CPU :=
  let c := { c with Y := (c.Y + 1) &&& 0xFF }
  let c := c.set_flag FlagZ (decide (c.Y = 0))
  c.set_flag FlagN (decide (c.Y &&& 0x80 ≠ 0))

/-- `CPU.dec(addr)`: `(read - 1) & 0xFF` wraps at zero. -/
def dec (c : CPU) (addr : Nat) : CPU :=
  let value := decMask (c.read addr)
  let c := c.write addr value
  let c := c.set_flag FlagZ (decide (value = 0))
  c.set_flag FlagN (decide (value &&& 0x80 ≠ 0))

/-- `CPU.dex()`. -/
def dex (c : CPU) : CPU :=
  let c := { c with X := decMask c.X }
  let c := c.set_flag FlagZ (decide (c.X = 0))
  c.set_flag FlagN (decide (c.X &&& 0x80 ≠ 0))

/-- `CPU.dey()`. -/
def dey (c : CPU) : CPU :=
  let c := { c with Y := decMask c.Y }
  let c := c.set_flag FlagZ (decide (c.Y = 0))
  c.set_flag FlagN (decide (c.Y &&& 0x80 ≠ 0))

/-- `CPU.asl(addr=None)` (`cpu.py` 359-372): accumulator or
read-modify-write variant, then Z/N from the shifted value. -/
def asl (c : CPU) (addr : Option Nat) : CPU :=
  let vc : Nat × CPU :=
    match addr with
    | none =>
      let value := c.A
      let c := c.set_flag FlagC (decide (value &&& 0x80 ≠ 0))
      let value := (value <<< 1) &&& 0xFF
      (value, { c with A := value })
    | some a =>
      let value := c.read a
      let c := c.set_flag FlagC (decide (value &&& 0x80 ≠ 0))
      let value := (value <<< 1) &&& 0xFF
      (value, c.write a value)
  let (value, c) := vc
  let c := c.set_flag FlagZ (decide (value = 0))
  c.set_flag FlagN (decide (value &&& 0x80 ≠ 0))

/-- `CPU.lsr(addr=None)`. -/
def lsr (c : CPU) (addr : Option Nat) : CPU :=
  let vc : Nat × CPU :=
    match addr with
    | none =>
      let value := c.A
      let c := c.set_flag FlagC (decide (value &&& 0x01 ≠ 0))
      let value := (value >>> 1) &&& 0xFF
      (value, { c with A := value })
    | some a =>
      let value := c.read a
      let c := c.set_flag FlagC (decide (value &&& 0x01 ≠ 0))
      let value := (value >>> 1) &&& 0xFF
      (value, c.write a value)
  let (value, c) := vc
  let c := c.set_flag FlagZ (decide (value = 0))
  c.set_flag FlagN (decide (value &&& 0x80 ≠ 0))

/-- `CPU.rol(addr=None)`. -/
def rol (c : CPU) (addr : Option Nat) : CPU :=
  let carry_in := if c.get_flag FlagC then 1 else 0
  let vcc : Nat × Nat × CPU :=
    match addr with
    | none =>
      let value := c.A
      let carry_out := value &&& 0x80
      let value := ((value <<< 1) ||| carry_in) &&& 0xFF
      (value, carry_out, { c with A := value })
    | some a =>
      let value := c.read a
      let carry_out := value &&& 0x80
      let value := ((value <<< 1) ||| carry_in) &&& 0xFF
      (value, carry_out, c.write a value)
  let (value, carry_out, c) := vcc
  let c := c.set_flag FlagC (decide (carry_out ≠ 0))
  let c := c.set_flag FlagZ (decide (value = 0))
  c.set_flag FlagN (decide (value &&& 0x80 ≠ 0))

/-- `CPU.ror(addr=None)`. -/
def ror (c : CPU) (addr : Option Nat) : CPU :=
  let carry_in := if c.get_flag FlagC then 1 else 0
  let vcc : Nat × Nat × CPU :=
    match addr with
    | none =>
      let value := c.A
      let carry_out := value &&& 0x01
      let value := ((carry_in <<< 7) ||| (value >>> 1)) &&& 0xFF
      (value, carry_out, { c with A := value })
    | some a =>
      let value := c.read a
      let carry_out := value &&& 0x01
      let value := ((carry_in <<< 7) ||| (value >>> 1)) &&& 0xFF
      (value, carry_out, c.write a value)
  let (value, carry_out, c) := vcc
  let c := c.set_flag FlagC (decide (carry_out ≠ 0))
  let c := c.set_flag FlagZ (decide (value = 0))
  c.set_flag FlagN (decide (value &&& 0x80 ≠ 0))

/-- `CPU.bit(value)` (`cpu.py` 425-429). -/
def bit (c : CPU) (value : Nat) : CPU :=
  let c := c.set_flag FlagZ (decide (c.A &&& value = 0))
  let c := c.set_flag FlagN (decide (value &&& 0x80 ≠ 0))
  c.set_flag FlagV (decide (value &&& 0x40 ≠ 0))

/-- `CPU.jmp(addr)`. -/
def jmp (c : CPU) (addr : Nat) : CPU := { c with PC := addr }

/-- `CPU.jsr(addr)` (`cpu.py` 436-440): pushes `PC - 1` high byte then
low byte.  `push` masks with `& 0xFF`, so only the low 16 bits of
`PC - 1` matter; `PC - 1` is computed mod `2^16` to keep `Nat`
(faithful for every `PC ≥ 0`, including the wrap at `PC = 0`). -/
def jsr (c : CPU) (addr : Nat) : CPU :=
  let ret := ((((c.PC : Int) - 1).emod 65536)).toNat
  let c := c.push (ret >>> 8)
  let c := c.push (ret &&& 0xFF)
  { c with PC := addr }

/-- `CPU.rts()`. -/
def rts (c : CPU) : CPU :=
  let (lo, c) := c.pull
  let (hi, c) := c.pull
  { c with PC := ((hi <<< 8) ||| lo) + 1 }

/-- `CPU.rti()`: pull P (B masked off, U forced on), then PC low, high. -/
def rti (c : CPU) : CPU :=
  let (v, c) := c.pull
  let c := { c with P := (v - (v &&& FlagB)) ||| FlagU }
  let (lo, c) := c.pull
  let (hi, c) := c.pull
  { c with PC := (hi <<< 8) ||| lo }

/-- `CPU.clc()` / `sec` / `cli` / `sei` / `clv` / `cld` / `sed`. -/
def clc (c : CPU) : CPU := c.set_flag FlagC false
/-- `CPU.sec()`. -/
def sec (c : CPU) : CPU := c.set_flag FlagC true
/-- `CPU.cli()`. -/
def cli (c : CPU) : CPU := c.set_flag FlagI false
/-- `CPU.sei()`. -/
def sei (c : CPU) : CPU := c.set_flag FlagI true
/-- `CPU.clv()`. -/
def clv (c : CPU) : CPU := c.set_flag FlagV false
/-- `CPU.cld()`. -/
def cld (c : CPU) : CPU := c.set_flag FlagD false
/-- `CPU.sed()`. -/
def sed (c : CPU) : CPU := c.set_flag FlagD true

/-- `CPU.brk()` (`cpu.py` 486-493). -/
def brk (c : CPU) : CPU :=
  let c := { c with PC := c.PC + 1 }
  let c := c.push (c.PC >>> 8)
  let c := c.push (c.PC &&& 0xFF)
  let c := c.php
  let c := c.set_flag FlagI true
  { c with PC := c.read_word 0xFFFE }

/-- `CPU.nop()`. -/
def nop (c : CPU) : CPU := c

/-- `CPU.branch(cond)` (`cpu.py` 501-505). -/
def branch (c : CPU) (cond : Bool) : CPU :=
  let (addr, c) := c.relative
  if cond then { c with PC := addr } else c

/-! ### Dispatch (`cpu.py` 509-785) -/

/-- The operand plumbing of the value-consuming dispatch closures:
`self.immediate()` for IMM, `self.read(self.MODE())` otherwise.  Modes
no value-consuming closure uses fall through to a dummy. -/
def operandValue (c : CPU) (t : AddrType) : Nat × CPU :=
  match t with
  | .IMM => c.immediate
  | .ZP => let (a, c) := c.zero_page; (c.read a, c)
  | .ZPX => let (a, c) := c.zero_page_x; (c.read a, c)
  | .ZPY => let (a, c) := c.zero_page_y; (c.read a, c)
  | .ABS => let (a, c) := c.absolute; (c.read a, c)
  | .ABSX => let (a, c) := c.absolute_x; (c.read a, c)
  | .ABSY => let (a, c) := c.absolute_y; (c.read a, c)
  | .INDX => let (a, c) := c.indexed_indirect; (c.read a, c)
  | .INDY => let (a, c) := c.indirect_indexed; (c.read a, c)
  | _ => (0, c)

/-- The operand plumbing of the address-consuming dispatch closures:
`self.MODE()` without the read.  Modes no address-consuming closure
uses fall through to a dummy. -/
def operandAddr (c : CPU) (t : AddrType) : Nat × CPU :=
  match t with
  | .ZP => c.zero_page
  | .ZPX => c.zero_page_x
  | .ZPY => c.zero_page_y
  | .ABS => c.absolute
  | .ABSX => c.absolute_x
  | .ABSY => c.absolute_y
  | .INDX => c.indexed_indirect
  | .INDY => c.indirect_indexed
  | .IND => c.indirect
  | _ => (0, c)

/-- Execute the dispatch closure of a `(mnemonic, mode)` table entry
(`cpu.py` 562-772): each closure composes one addressing evaluator with
one instruction method exactly as transcribed in `cpuTable`. -/
def execPair (m : String) (t : AddrType) (c : CPU) : CPU :=
  match m with
  | "LDA" => let (v, c) := operandValue c t; c.lda v
  | "LDX" => let (v, c) := operandValue c t; c.ldx v
  | "LDY" => let (v, c) := operandValue c t; c.ldy v
  | "STA" => let (a, c) := operandAddr c t; c.sta a
  | "STX" => let (a, c) := operandAddr c t; c.stx a
  | "STY" => let (a, c) := operandAddr c t; c.sty a
  | "TAX" => c.tax
  | "TAY" => c.tay
  | "TXA" => c.txa
  | "TYA" => c.tya
  | "TSX" => c.tsx
  | "TXS" => c.txs
  | "PHA" => c.pha
  | "PHP" => c.php
  | "PLA" => c.pla
  | "PLP" => c.plp
  | "ADC" => let (v, c) := operandValue c t; c.adc v
  | "SBC" => let (v, c) := operandValue c t; c.sbc v
  | "AND" => let (v, c) := operandValue c t; c.and_ v
  | "ORA" => let (v, c) := operandValue c t; c.ora v
  | "EOR" => let (v, c) := operandValue c t; c.eor v
  | "CMP" => let (v, c) := operandValue c t; c.cmp v
  | "CPX" => let (v, c) := operandValue c t; c.cpx v
  | "CPY" => let (v, c) := operandValue c t; c.cpy v
  | "INC" => let (a, c) := operandAddr c t; c.inc a
  | "INX" => c.inx
  | "INY" => c.iny
  | "DEC" => let (a, c) := operandAddr c t; c.dec a
  | "DEX" => c.dex
  | "DEY" => c.dey
  | "ASL" =>
    if t = .ACC then c.asl none else let (a, c) := operandAddr c t; c.asl (some a)
  | "LSR" =>
    if t = .ACC then c.lsr none else let (a, c) := operandAddr c t; c.lsr (some a)
  | "ROL" =>
    if t = .ACC then c.rol none else let (a, c) := operandAddr c t; c.rol (some a)
  | "ROR" =>
    if t = .ACC then c.ror none else let (a, c) := operandAddr c t; c.ror (some a)
  | "BIT" => let (v, c) := operandValue c t; c.bit v
  | "JMP" => let (a, c) := operandAddr c t; c.jmp a
  | "JSR" => let (a, c) := operandAddr c t; c.jsr a
  | "RTS" => c.rts
  | "RTI" => c.rti
  | "BRK" => c.brk
  | "NOP" => c.nop
  | "CLC" => c.clc
  | "SEC" => c.sec
  | "CLI" => c.cli
  | "SEI" => c.sei
  | "CLV" => c.clv
  | "CLD" => c.cld
  | "SED" => c.sed
  | "BCC" => c.branch (!(c.get_flag FlagC))
  | "BCS" => c.branch (c.get_flag FlagC)
  | "BEQ" => c.branch (c.get_flag FlagZ)
  | "BMI" => c.branch (c.get_flag FlagN)
  | "BNE" => c.branch (!(c.get_flag FlagZ))
  | "BPL" => c.branch (!(c.get_flag FlagN))
  | "BVC" => c.branch (!(c.get_flag FlagV))
  | "BVS" => c.branch (c.get_flag FlagV)
  | _ => c

end CPU

/-- The errors `CPU.step` can raise: the `KeyError` Python's dict
subscript `self.opcode_table[opcode]` raises on a missing key (carrying
only the key), and the `NotImplementedError` of the explicit raise
(carrying opcode and fetch PC), which is unreachable because the
subscript raises first and no table value is `None`. -/
inductive CpuErr where
  | keyError (opcode : Nat)
  | notImplemented (opcode : Nat) (pc : Nat)
deriving DecidableEq, Repr

namespace CPU

/-- `CPU.step()` (`cpu.py` 775-785): fetch, advance PC, dispatch.
`handler = self.opcode_table[opcode]` is a dict subscript, so a missing
opcode raises `KeyError(opcode)` at the lookup; the `None` test that
guards the `NotImplementedError` raise can then never fail. -/
def step (c : CPU) : Except CpuErr CPU :=
  let opcode := c.read c.PC
  let c := { c with PC := c.PC + 1 }
  match cpuDecode opcode with
  | some mt => .ok (execPair mt.1 mt.2 c)
  | none => .error (.keyError opcode)

/-- `CPU.run(n)` (`cpu.py` 788-791): n loop iterations, each stepping
only when the byte at PC is not `$00`. -/
def run (c : CPU) : Nat → Except CpuErr CPU
  | 0 => .ok c
  | n + 1 =>
    if c.read c.PC ≠ 0x00 then
      match c.step with
      | .ok c' => run c' n
      | .error e => .error e
    else run c n

/-- `k` unconditional invocations of `step` — the measure against which
`run n` is bounded. -/
def stepN (c : CPU) : Nat → Except CpuErr CPU
  | 0 => .ok c
  | k + 1 =>
    match c.step with
    | .ok c' => stepN c' k
    | .error e => .error e

end CPU

/-- `CPU.reset()` (`cpu.py` 20-31): A/X/Y zeroed, SP `$FD`, P `$24`,
PC from the little-endian reset vector at `$FFFC`. -/
def resetCPU (mem : Memory) : CPU :=
  let c : CPU := { A := 0, X := 0, Y := 0, SP := 0xFD, PC := 0, P := 0x24,
                   mem := mem }
  { c with PC := c.read_word 0xFFFC }

/-! ## Concrete states used by the scenario theorems -/

/-- A memory with no handlers whose backing bytes are given by `f`. -/
def plainMem (f : Nat → Nat) : Memory :=
  { data := f, readHandlers := fun _ => none, writeHandlers := fun _ => false }

/-- The program `CLC ; LDA #$7F ; ADC #$01 ; BRK` assembled at `$A000`
(`18 A9 7F 69 01 00`), with the reset vector pointing at `$A000`. -/
def adcDemoMem : Memory :=
  plainMem (fun a =>
    if a = 0xA000 then 0x18 else if a = 0xA001 then 0xA9
    else if a = 0xA002 then 0x7F else if a = 0xA003 then 0x69
    else if a = 0xA004 then 0x01 else if a = 0xFFFD then 0xA0 else 0)

/-- A freshly reset CPU state (`SP = $FD`, `P = $24`, carry clear) with
`A = 0` over an all-zero memory, used for the ADC/SBC round-trip
counterexample. -/
def zeroCPU : CPU :=
  { A := 0, X := 0, Y := 0, SP := 0xFD, PC := 0, P := 0x24,
    mem := plainMem (fun _ => 0) }

/-! ## Shared arithmetic lemmas -/

theorem and_ffff (a : Nat) : a &&& 65535 = a % 65536 := by
  have h := Nat.and_pow_two_sub_one_eq_mod a 16
  norm_num at h
  exact h

theorem and_ff (a : Nat) : a &&& 255 = a % 256 := by
  have h := Nat.and_pow_two_sub_one_eq_mod a 8
  norm_num at h
  exact h

theorem and_ffff_of_lt {a : Nat} (h : a < 65536) : a &&& 65535 = a := by
  rw [and_ffff, Nat.mod_eq_of_lt h]

set_option maxRecDepth 4096 in
theorem xor_ff_of_lt {v : Nat} (h : v < 256) : v ^^^ 255 = 255 - v := by
  revert h
  revert v
  decide

theorem run_succ (c : CPU) (n : Nat) :
    c.run (n + 1) =
      if c.read c.PC ≠ 0x00 then
        (match c.step with
         | .ok c' => c'.run n
         | .error e => .error e)
      else c.run n := rfl

theorem stepN_succ (c : CPU) (k : Nat) :
    c.stepN (k + 1) =
      (match c.step with
       | .ok c' => c'.stepN k
       | .error e => .error e) := rfl

/-! ## Memory-fabric theorems -/

/-- **C4.** For every address `a` inside a ROM window (`$A000-$BFFF` or
`$E000-$FFFF`) and every value `v`, `write(a, v)` leaves both `read(a)`
and the backing byte at `a` unchanged, and — when no write handler is
registered at `a` — the write is a complete no-op (state unchanged, no
handler invoked). -/
theorem C4_rom_write_dropped (m : Memory) (a v : Nat)
    (hrom : (0xA000 ≤ a ∧ a < 0xC000) ∨ (0xE000 ≤ a ∧ a < 0x10000)) :
    (m.write a v).1.read a = m.read a ∧
    (m.write a v).1.data a = m.data a ∧
    (m.writeHandlers a = false → m.write a v = (m, none)) := by
  have hlt : a < 65536 := by rcases hrom with ⟨_, h⟩ | ⟨_, h⟩ <;> omega
  have hmask : a &&& 0xFFFF = a := and_ffff_of_lt hlt
  unfold Memory.write
  simp only [hmask]
  by_cases hw : m.writeHandlers a
  · simp [hw]
  · simp only [hw, if_false, Bool.false_eq_true]
    rcases hrom with ⟨h1, h2⟩ | ⟨h1, h2⟩
    · rw [if_pos (by omega : 0xA000 ≤ a ∧ a < 0xA000 + 0x2000)]
      simp
    · rw [if_neg (by omega : ¬(0xA000 ≤ a ∧ a < 0xA000 + 0x2000)),
          if_pos (by omega : 0xE000 ≤ a ∧ a < 0xE000 + 0x2000)]
      simp

/-- Witness for C4 at `a = $A000`, `v = $12` on a handler-free memory. -/
theorem C4_rom_write_dropped_witness :
    let m : Memory := { data := fun _ => 7, readHandlers := fun _ => none,
                        writeHandlers := fun _ => false }
    (m.write 0xA000 0x12).1.read 0xA000 = m.read 0xA000 ∧
    (m.write 0xA000 0x12).1.data 0xA000 = m.data 0xA000 ∧
    (m.writeHandlers 0xA000 = false → m.write 0xA000 0x12 = (m, none)) :=
  C4_rom_write_dropped _ 0xA000 0x12 (Or.inl (by norm_num))

/-- **C9.** A write to any address with a registered write handler —
ROM-window addresses included — invokes the handler with the value
masked to 8 bits and returns at once with the memory state (and hence
the backing byte) unchanged; registering a handler at `a` and writing
to `a` behaves the same way with no further hypothesis. -/
theorem C9_write_handler_priority (m : Memory) (a v : Nat)
    (hw : m.writeHandlers (a &&& 0xFFFF) = true) :
    m.write a v = (m, some (a &&& 0xFFFF, v &&& 0xFF)) ∧
    (m.register_write_handler a).write a v
      = (m.register_write_handler a, some (a &&& 0xFFFF, v &&& 0xFF)) := by
  constructor
  · unfold Memory.write
    simp [hw]
  · unfold Memory.write Memory.register_write_handler
    simp

/-- Witness for C9 at the ROM-window address `$A000` with `v = $1FF`
(masked to `$FF`). -/
theorem C9_write_handler_priority_witness :
    let m : Memory := { data := fun _ => 7, readHandlers := fun _ => none,
                        writeHandlers := fun a => a = 0xA000 }
    m.writeHandlers (0xA000 &&& 0xFFFF) = true ∧
    (m.write 0xA000 0x1FF = (m, some (0xA000, 0xFF)) ∧
     (m.register_write_handler 0xA000).write 0xA000 0x1FF
       = (m.register_write_handler 0xA000, some (0xA000, 0xFF))) :=
  ⟨by decide, C9_write_handler_priority _ 0xA000 0x1FF (by decide)⟩

/-! ## CPU step/run theorems -/

/-- **C3.** When `step()` fetches an opcode byte with no dispatch
entry, the source raises at the dict subscript
`self.opcode_table[opcode]`: a `KeyError` carrying only the opcode
byte, never the `NotImplementedError` of the unreachable explicit raise
that would have carried the opcode *and* the fetch PC.  The claim's
`IllegalInstruction`-with-PC behaviour is the intent of that dead
branch; the shipped code cannot produce it.  (No opcode is silently
skipped: the step always errors.)  Demonstrated concretely for opcode
`$02` fetched at PC `$A000`. -/
theorem C3_unmapped_opcode_keyerror (c : CPU)
    (h : cpuDecode (c.read c.PC) = none) :
    c.step = .error (.keyError (c.read c.PC)) ∧
    (∀ pc, c.step ≠ .error (.notImplemented (c.read c.PC) pc)) := by
  have hstep : c.step = .error (.keyError (c.read c.PC)) := by
    simp [CPU.step, h]
  exact ⟨hstep, fun pc => by simp [hstep]⟩

/-- Witness for C3: opcode `$02` at PC `$A000` raises `KeyError(2)`. -/
theorem C3_unmapped_opcode_keyerror_witness :
    let m : Memory := { data := fun a => if a = 0xA000 then 0x02 else
                          if a = 0xFFFD then 0xA0 else 0,
                        readHandlers := fun _ => none,
                        writeHandlers := fun _ => false }
    let c := resetCPU m
    c.step = .error (.keyError (c.read c.PC)) ∧
    (∀ pc, c.step ≠ .error (.notImplemented (c.read c.PC) pc)) :=
  C3_unmapped_opcode_keyerror _ (by decide)

/-- **C5.** `run(n)` executes at most `n` instructions (its result is
`stepN k` for some `k ≤ n`) and never steps the BRK opcode: whenever PC
points at a byte reading `$00`, `run` returns the state unchanged, so
the `$00` at PC is never dispatched. -/
theorem C5_run_bounded_and_brk_halts (c : CPU) (n : Nat) :
    (c.read c.PC = 0 → c.run n = .ok c) ∧
    (∃ k ≤ n, c.run n = c.stepN k) := by
  induction n generalizing c with
  | zero => exact ⟨fun _ => rfl, 0, Nat.le_refl 0, rfl⟩
  | succ n ih =>
    constructor
    · intro h0
      rw [run_succ, if_neg (by simp [h0])]
      exact (ih c).1 h0
    · by_cases h : c.read c.PC ≠ 0x00
      · cases hs : c.step with
        | ok c' =>
          obtain ⟨k, hk, he⟩ := (ih c').2
          refine ⟨k + 1, by omega, ?_⟩
          rw [run_succ, if_pos h, hs, stepN_succ, hs]
          exact he
        | error e =>
          refine ⟨1, by omega, ?_⟩
          rw [run_succ, if_pos h, hs, stepN_succ, hs]
      · push_neg at h
        obtain ⟨k, hk, he⟩ := (ih c).2
        refine ⟨k, by omega, ?_⟩
        rw [run_succ, if_neg (by simp [h])]
        exact he

/-- Witness for C5 at a state whose PC reads `$00` and `n = 2`. -/
theorem C5_run_bounded_and_brk_halts_witness :
    let m : Memory := { data := fun _ => 0, readHandlers := fun _ => none,
                        writeHandlers := fun _ => false }
    let c := resetCPU m
    (c.run 2 = .ok c) ∧ (∃ k ≤ 2, c.run 2 = c.stepN k) :=
  ⟨(C5_run_bounded_and_brk_halts _ 2).1 (by decide),
   (C5_run_bounded_and_brk_halts _ 2).2⟩

/-! ## Flag-chain lemmas for the ADC/SBC theorems -/

set_option maxRecDepth 8192 in
theorem adc_flag_chain (P : Nat) (hP : P < 256) (c1 c2 c3 c4 : Bool) :
    let Q := CPU.set_flag_bits (CPU.set_flag_bits (CPU.set_flag_bits
        (CPU.set_flag_bits P 1 c1) 2 c2) 128 c3) 64 c4
    ((Q &&& 1 != 0) = c1 ∧ (Q &&& 2 != 0) = c2 ∧ (Q &&& 128 != 0) = c3 ∧
     (Q &&& 64 != 0) = c4 ∧ (Q &&& 8 != 0) = (P &&& 8 != 0) ∧ Q < 256) := by
  cases c1 <;> cases c2 <;> cases c3 <;> cases c4 <;>
    · revert hP
      revert P
      decide

set_option maxRecDepth 8192 in
theorem set_flag_bits_carry (P : Nat) (hP : P < 256) (b : Bool) :
    ((CPU.set_flag_bits P 1 b &&& 1 != 0) = b ∧
     CPU.set_flag_bits P 1 b < 256) := by
  cases b <;>
    · revert hP
      revert P
      decide

/-- **C2.** ADC computes `r = A + M + C` and leaves `A = r & $FF`,
carry iff `r > 255`, zero iff `r & $FF = 0`, negative iff bit 7 of
`r & $FF`, and overflow iff `((~(A^M)) & (A^r)) & $80 ≠ 0` (Python's
`~` agreeing with `^ 0xFF` at bit 7); the decimal flag is neither
consulted (the characterisation depends only on A, M and the incoming
carry) nor changed.  Concretely, `CLC ; LDA #$7F ; ADC #$01 ; BRK`
halts with `A=$80, N=1, V=1, C=0, Z=0`. -/
theorem C2_adc_spec (c : CPU) (M : Nat)
    (_hA : c.A < 256) (_hM : M < 256) (hP : c.P < 256) :
    (let cin := if c.get_flag FlagC then 1 else 0
     let r := c.A + M + cin
     let c' := c.adc M
     c'.A = r &&& 0xFF ∧
     c'.get_flag FlagC = decide (r > 255) ∧
     c'.get_flag FlagZ = decide (r &&& 0xFF = 0) ∧
     c'.get_flag FlagN = decide ((r &&& 0xFF) &&& 0x80 ≠ 0) ∧
     c'.get_flag FlagV =
       decide ((((c.A ^^^ M) ^^^ 0xFF) &&& (c.A ^^^ r)) &&& 0x80 ≠ 0) ∧
     c'.get_flag FlagD = c.get_flag FlagD) ∧
    ((resetCPU adcDemoMem).run 10).toOption.map
        (fun cf => (cf.A, cf.get_flag FlagN, cf.get_flag FlagV,
                    cf.get_flag FlagC, cf.get_flag FlagZ))
      = some (0x80, true, true, false, false) := by
  constructor
  · intro cin r c'
    have hN : (r &&& 255) &&& 128 = r &&& 128 := by
      rw [Nat.and_assoc, show (255 : Nat) &&& 128 = 128 by decide]
    have hch := adc_flag_chain c.P hP (decide (r > 0xFF))
        (decide (r &&& 0xFF = 0))
        (decide (r &&& 0x80 ≠ 0))
        (decide ((((c.A ^^^ M) ^^^ 0xFF) &&& (c.A ^^^ r)) &&& 0x80 ≠ 0))
    simp only [] at hch
    obtain ⟨h1, h2, h3, h4, h5, _⟩ := hch
    show (c.adc M).A = r &&& 0xFF ∧ _
    simp only [CPU.adc, CPU.set_flag, CPU.get_flag, FlagC, FlagZ, FlagN,
      FlagV, FlagD]
    refine ⟨rfl, h1, h2, ?_, h4, h5⟩
    rw [hN]
    exact h3
  · decide

/-- Witness for C2 at `A = $7F`, `M = 1`, carry clear (`P = $24`). -/
theorem C2_adc_spec_witness :
    (CPU.adc { zeroCPU with A := 0x7F } 1).A = 0x80 ∧
    (CPU.adc { zeroCPU with A := 0x7F } 1).get_flag FlagV = true := by
  have h := (C2_adc_spec { zeroCPU with A := 0x7F } 1
    (by decide) (by decide) (by decide)).1
  simp only [] at h
  exact ⟨h.1.trans (by decide), (h.2.2.2.2.1).trans (by decide)⟩

theorem set_flag_bits_lt (P f : Nat) (hP : P < 256) (hf : f < 256)
    (b : Bool) : CPU.set_flag_bits P f b < 256 := by
  cases b
  · have hle : P - (P &&& f) ≤ P := Nat.sub_le _ _
    simp only [CPU.set_flag_bits, Bool.false_eq_true, if_false]
    omega
  · simp only [CPU.set_flag_bits, if_true]
    have h := Nat.or_lt_two_pow (x := P) (y := f) (n := 8)
      (by omega) (by omega)
    simpa using h

/-- **C8 counterexample.**  The claim as stated — ADC then SBC with
*matching* incoming carries restores A — fails at `A = 0`, `v = 0`,
carry clear: the carry flag is still clear after the ADC (so the carry
into the SBC matches the carry into the ADC under either reading of
"matching"), yet the SBC leaves `A = 255 ≠ 0`. -/
theorem C8_counterexample :
    zeroCPU.get_flag FlagC = false ∧
    (zeroCPU.adc 0).get_flag FlagC = false ∧
    ((zeroCPU.adc 0).sbc 0).A = 255 ∧
    zeroCPU.A = 0 ∧ (255 : Nat) ≠ 0 := by decide

/-- **C8 (amended).**  ADC with incoming carry `b` followed by SBC with
the *complementary* incoming carry `¬b` returns the accumulator to its
pre-ADC value, for every 8-bit A and operand `v` (binary mode; SBC is
ADC of the bit-inverted operand). -/
theorem C8_adc_sbc_roundtrip (c : CPU) (v : Nat) (b : Bool)
    (hA : c.A < 256) (hv : v < 256) (hP : c.P < 256) :
    (let pre := if b then c.sec else c.clc
     let mid := pre.adc v
     let mid2 := if b then mid.clc else mid.sec
     (mid2.sbc v).A = c.A) := by
  have hxor : v ^^^ 255 = 255 - v := xor_ff_of_lt hv
  cases b
  · -- carry clear into ADC, carry set into SBC
    have hpre := set_flag_bits_carry c.P hP false
    have hmidP : ∀ b1 b2 b3 b4 : Bool,
        CPU.set_flag_bits (CPU.set_flag_bits (CPU.set_flag_bits
          (CPU.set_flag_bits (CPU.set_flag_bits c.P 1 false) 1 b1) 2 b2)
          128 b3) 64 b4 < 256 := by
      intro b1 b2 b3 b4
      apply set_flag_bits_lt _ _ _ (by norm_num)
      apply set_flag_bits_lt _ _ _ (by norm_num)
      apply set_flag_bits_lt _ _ _ (by norm_num)
      apply set_flag_bits_lt _ _ _ (by norm_num)
      exact hpre.2
    simp only [if_false, Bool.false_eq_true, CPU.sec, CPU.clc, CPU.adc,
      CPU.sbc, CPU.set_flag, CPU.get_flag, FlagC, FlagZ, FlagN, FlagV]
    rw [hpre.1]
    simp only [Bool.false_eq_true, if_false, Nat.add_zero]
    rw [(set_flag_bits_carry _ (hmidP _ _ _ _) true).1]
    simp only [if_true, and_ff, hxor]
    omega
  · -- carry set into ADC, carry clear into SBC
    have hpre := set_flag_bits_carry c.P hP true
    have hmidP : ∀ b1 b2 b3 b4 : Bool,
        CPU.set_flag_bits (CPU.set_flag_bits (CPU.set_flag_bits
          (CPU.set_flag_bits (CPU.set_flag_bits c.P 1 true) 1 b1) 2 b2)
          128 b3) 64 b4 < 256 := by
      intro b1 b2 b3 b4
      apply set_flag_bits_lt _ _ _ (by norm_num)
      apply set_flag_bits_lt _ _ _ (by norm_num)
      apply set_flag_bits_lt _ _ _ (by norm_num)
      apply set_flag_bits_lt _ _ _ (by norm_num)
      exact hpre.2
    simp only [if_true, CPU.sec, CPU.clc, CPU.adc,
      CPU.sbc, CPU.set_flag, CPU.get_flag, FlagC, FlagZ, FlagN, FlagV]
    rw [hpre.1]
    simp only [if_true]
    rw [(set_flag_bits_carry _ (hmidP _ _ _ _) false).1]
    simp only [Bool.false_eq_true, if_false, Nat.add_zero, and_ff, hxor]
    omega

/-- Witness for the amended C8 at `A = 5`, `v = 3`, carry clear into
the ADC (so carry set into the SBC). -/
theorem C8_adc_sbc_roundtrip_witness :
    (let c := { zeroCPU with A := 5 }
     let pre := if false then c.sec else c.clc
     let mid := pre.adc 3
     let mid2 := if false then mid.clc else mid.sec
     (mid2.sbc 3).A = 5) :=
  C8_adc_sbc_roundtrip { zeroCPU with A := 5 } 3 false
    (by decide) (by decide) (by decide)

/-- **C6.** For every `(pc, target)` with `target - (pc + 2)` in the
signed 8-bit range `[-128, 127]` (and the operand byte at a valid
16-bit address), encoding a branch via `encode_instr`'s REL rule —
`offset = (target - (pc + 2)) & $FF` — and then executing a taken
branch whose opcode sits at `pc` (so `relative()` runs with
`PC = pc + 1`) lands the CPU exactly on `target`.  Shown for BCC,
whose opcode byte is `$90`. -/
theorem C6_branch_roundtrip (pc target : Nat) (lbl : List Char)
    (h1 : pc + 2 ≤ target + 128) (h2 : target ≤ pc + 2 + 127)
    (h3 : pc + 2 ≤ 0xFFFF) :
    ∃ off : Nat,
      encode_instr [(lbl, target)] "BCC" AddrType.REL (some lbl) pc
        = .ok (0x90, [off]) ∧
      (CPU.branch
        { A := 0, X := 0, Y := 0, SP := 0xFD, PC := pc + 1, P := 0x24,
          mem := plainMem (fun a => if a = pc + 1 then off else 0) }
        true).PC = target := by
  refine ⟨(((target : Int) - ((pc : Int) + 2)).emod 256).toNat, ?_, ?_⟩
  · unfold encode_instr
    simp [labelLookup, opcodesLookup, OPCODES, asmKey, cpuTable]
    rfl
  · have hoff : ((((target : Int) - ((pc : Int) + 2)) % 256).toNat : Int)
        = ((target : Int) - ((pc : Int) + 2)) % 256 :=
      Int.toNat_of_nonneg (Int.emod_nonneg _ (by norm_num))
    have hm : pc + 1 < 65536 := by omega
    simp only [CPU.branch, CPU.relative, CPU.read, Memory.read, plainMem]
    rw [and_ffff_of_lt hm, and_ffff_of_lt hm]
    simp
    split_ifs with hc
    · show pc + 1 + 1 + ((((target : Int) - ((pc : Int) + 2)) % 256).toNat)
        = target
      have hc' : ((((target : Int) - ((pc : Int) + 2)) % 256).toNat) < 128 :=
        hc
      omega
    · show pc + 1 + 1 + ((((target : Int) - ((pc : Int) + 2)) % 256).toNat)
          - 256 = target
      have hc' : ¬ ((((target : Int) - ((pc : Int) + 2)) % 256).toNat) < 128 :=
        hc
      omega

/-- Witness for C6: a backward BCC at `pc = $A00A` to `target = $A005`
(displacement `-7`, encoded `$F9`). -/
theorem C6_branch_roundtrip_witness :
    ∃ off : Nat,
      encode_instr [("loop".data, 0xA005)] "BCC" AddrType.REL
          (some "loop".data) 0xA00A
        = .ok (0x90, [off]) ∧
      (CPU.branch
        { A := 0, X := 0, Y := 0, SP := 0xFD, PC := 0xA00A + 1, P := 0x24,
          mem := plainMem (fun a => if a = 0xA00A + 1 then off else 0) }
        true).PC = 0xA005 :=
  C6_branch_roundtrip 0xA00A 0xA005 "loop".data
    (by norm_num) (by norm_num) (by norm_num)

/-! ## String lemmas for the operand-classifier theorem -/

theorem pyStartsWith_single_iff (l : List Char) (d : Char) :
    pyStartsWith l [d] = true ↔ ∃ t, l = d :: t := by
  cases l with
  | nil => simp [pyStartsWith]
  | cons c t =>
    constructor
    · intro h
      simp only [pyStartsWith, Bool.and_eq_true, beq_iff_eq] at h
      exact ⟨t, by rw [h.1]⟩
    · rintro ⟨t', ht⟩
      injection ht with h1 h2
      subst h1
      subst h2
      simp [pyStartsWith]

theorem head_of_take {s t : List Char} {k : Nat} {c : Char}
    (h : s.take k = c :: t) : ∃ t', s = c :: t' := by
  cases s with
  | nil => simp at h
  | cons c0 t0 =>
    cases k with
    | zero => simp at h
    | succ k =>
      simp only [List.take, List.cons.injEq] at h
      exact ⟨t0, by rw [h.1]⟩

/-- A base that satisfies the absolute-indexed rule's guard starts with
`$`, a digit, or an identifier-start character. -/
theorem base_head_of_guard {l : List Char}
    (hB : (pyStartsWith l ['$'] || pyIsDigit l || pyIsIdent l) = true) :
    ∃ c t, l = c :: t ∧ (c = '$' ∨ c.isDigit = true ∨
      identStartChar c = true) := by
  cases l with
  | nil => simp [pyStartsWith, pyIsDigit, pyIsIdent] at hB
  | cons c t =>
    refine ⟨c, t, rfl, ?_⟩
    rw [Bool.or_eq_true, Bool.or_eq_true] at hB
    rcases hB with (hB | hB) | hB
    · rcases (pyStartsWith_single_iff _ _).1 hB with ⟨t', ht⟩
      injection ht with h1 _
      exact Or.inl h1
    · have h2 : (!(c :: t).isEmpty && (c :: t).all Char.isDigit) = true := hB
      rw [Bool.and_eq_true] at h2
      have h3 : (c.isDigit && t.all Char.isDigit) = true := h2.2
      rw [Bool.and_eq_true] at h3
      exact Or.inr (Or.inl h3.1)
    · have h2 : (identStartChar c && t.all identChar) = true := hB
      rw [Bool.and_eq_true] at h2
      exact Or.inr (Or.inr h2.1)

/-- The head character of an absolute-indexed base is never `#` or `(`,
so the immediate and parenthesised rules cannot fire. -/
theorem base_head_not_special {c : Char}
    (h : c = '$' ∨ c.isDigit = true ∨ identStartChar c = true) :
    (c == '#') = false ∧ (c == '(') = false := by
  rcases h with rfl | h | h
  · decide
  · constructor
    · cases hc : c == '#'
      · rfl
      · rw [show c = '#' from eq_of_beq hc] at h
        simp [Char.isDigit] at h
    · cases hc : c == '('
      · rfl
      · rw [show c = '(' from eq_of_beq hc] at h
        simp [Char.isDigit] at h
  · constructor
    · cases hc : c == '#'
      · rfl
      · rw [show c = '#' from eq_of_beq hc] at h
        simp [identStartChar, Char.isAlpha, Char.isUpper, Char.isLower] at h
    · cases hc : c == '('
      · rfl
      · rw [show c = '(' from eq_of_beq hc] at h
        simp [identStartChar, Char.isAlpha, Char.isUpper, Char.isLower] at h

theorem endsWith_comma_X_not_Y {s : List Char}
    (h : pyEndsWith s [',', 'X'] = true) :
    pyEndsWith s [',', 'Y'] = false := by
  unfold pyEndsWith at h ⊢
  rw [show [',', 'X'].reverse = ['X', ','] from rfl] at h
  rw [show [',', 'Y'].reverse = ['Y', ','] from rfl]
  generalize hr : s.reverse = r at h ⊢
  cases r with
  | nil => simp [pyStartsWith] at h
  | cons c t =>
    simp only [pyStartsWith, Bool.and_eq_true, beq_iff_eq] at h
    rw [h.1]
    simp [pyStartsWith, show (('X' == 'Y') : Bool) = false from rfl]

theorem endsWith_comma_Y_not_X {s : List Char}
    (h : pyEndsWith s [',', 'Y'] = true) :
    pyEndsWith s [',', 'X'] = false := by
  unfold pyEndsWith at h ⊢
  rw [show [',', 'Y'].reverse = ['Y', ','] from rfl] at h
  rw [show [',', 'X'].reverse = ['X', ','] from rfl]
  generalize hr : s.reverse = r at h ⊢
  cases r with
  | nil => simp [pyStartsWith] at h
  | cons c t =>
    simp only [pyStartsWith, Bool.and_eq_true, beq_iff_eq] at h
    rw [h.1]
    simp [pyStartsWith, show (('Y' == 'X') : Bool) = false from rfl]

/-- `parse_operand_stripped` never classifies ZPX or ZPY: the
zero-page-indexed guards demand a `$`-prefixed base, which already
satisfies the earlier absolute-indexed guards. -/
theorem parse_stripped_not_zp_indexed (s : List Char) (mn : Option String) :
    (parse_operand_stripped s mn).1 ≠ .ZPX ∧
    (parse_operand_stripped s mn).1 ≠ .ZPY := by
  unfold parse_operand_stripped
  by_cases h1 : pyStartsWith s ['#'] = true
  · rw [if_pos h1]; exact ⟨(fun h => nomatch h), (fun h => nomatch h)⟩
  rw [if_neg h1]
  by_cases h2 : (pyStartsWith s ['('] && pyEndsWith s [',', 'X', ')']) = true
  · rw [if_pos h2]; exact ⟨(fun h => nomatch h), (fun h => nomatch h)⟩
  rw [if_neg h2]
  by_cases h3 : (pyStartsWith s ['('] && pyEndsWith s [')', ',', 'Y']) = true
  · rw [if_pos h3]; exact ⟨(fun h => nomatch h), (fun h => nomatch h)⟩
  rw [if_neg h3]
  by_cases h4 : (pyStartsWith s ['('] && pyEndsWith s [')']) = true
  · rw [if_pos h4]; exact ⟨(fun h => nomatch h), (fun h => nomatch h)⟩
  rw [if_neg h4]
  by_cases h5 : (pyEndsWith s [',', 'X'] &&
      (pyStartsWith (dropEnd s 2) ['$'] || pyIsDigit (dropEnd s 2)
        || pyIsIdent (dropEnd s 2))) = true
  · rw [if_pos h5]; exact ⟨(fun h => nomatch h), (fun h => nomatch h)⟩
  rw [if_neg h5]
  by_cases h6 : (pyEndsWith s [',', 'Y'] &&
      (pyStartsWith (dropEnd s 2) ['$'] || pyIsDigit (dropEnd s 2)
        || pyIsIdent (dropEnd s 2))) = true
  · rw [if_pos h6]; exact ⟨(fun h => nomatch h), (fun h => nomatch h)⟩
  rw [if_neg h6]
  have h7 : ¬((pyEndsWith s [',', 'X'] &&
      (pyStartsWith (dropEnd s 2) ['$']
        && (dropEnd s 2).length ≤ 3)) = true) := by
    intro hq
    rw [Bool.and_eq_true, Bool.and_eq_true] at hq
    apply h5
    rw [Bool.and_eq_true, Bool.or_eq_true, Bool.or_eq_true]
    exact ⟨hq.1, Or.inl (Or.inl hq.2.1)⟩
  rw [if_neg h7]
  have h8 : ¬((pyEndsWith s [',', 'Y'] &&
      (pyStartsWith (dropEnd s 2) ['$']
        && (dropEnd s 2).length ≤ 3)) = true) := by
    intro hq
    rw [Bool.and_eq_true, Bool.and_eq_true] at hq
    apply h6
    rw [Bool.and_eq_true, Bool.or_eq_true, Bool.or_eq_true]
    exact ⟨hq.1, Or.inl (Or.inl hq.2.1)⟩
  rw [if_neg h8]
  by_cases h9 : (pyUpper s == ['A']) = true
  · rw [if_pos h9]; exact ⟨(fun h => nomatch h), (fun h => nomatch h)⟩
  rw [if_neg h9]
  by_cases h10 : s.isEmpty = true
  · rw [if_pos h10]; exact ⟨(fun h => nomatch h), (fun h => nomatch h)⟩
  rw [if_neg h10]
  by_cases h11 : ((match mn with
      | some m => branch_mnemonics.contains m
      | none => false) && pyIsIdent s) = true
  · rw [if_pos h11]; exact ⟨(fun h => nomatch h), (fun h => nomatch h)⟩
  rw [if_neg h11]
  by_cases h12 : pyStartsWith s ['$'] = true
  · rw [if_pos h12]
    by_cases h12a : s.length ≤ 3
    · rw [if_pos h12a]; exact ⟨(fun h => nomatch h), (fun h => nomatch h)⟩
    · rw [if_neg h12a]; exact ⟨(fun h => nomatch h), (fun h => nomatch h)⟩
  rw [if_neg h12]
  by_cases h13 : pyIsDigit s = true
  · rw [if_pos h13]
    by_cases h13a : digitsToNat s < 0x100
    · rw [if_pos h13a]; exact ⟨(fun h => nomatch h), (fun h => nomatch h)⟩
    · rw [if_neg h13a]; exact ⟨(fun h => nomatch h), (fun h => nomatch h)⟩
  rw [if_neg h13]
  by_cases h14 : (matchLabelExpr s).isSome = true
  · rw [if_pos h14]; exact ⟨(fun h => nomatch h), (fun h => nomatch h)⟩
  rw [if_neg h14]
  by_cases h15 : pyIsIdent s = true
  · rw [if_pos h15]; exact ⟨(fun h => nomatch h), (fun h => nomatch h)⟩
  rw [if_neg h15]
  exact ⟨(fun h => nomatch h), (fun h => nomatch h)⟩

/-- A stripped operand ending in `,X` whose base is `$`-prefixed,
decimal, or an identifier is classified ABSX. -/
theorem parse_stripped_absx (s : List Char) (mn : Option String)
    (hE : pyEndsWith s [',', 'X'] = true)
    (hB : (pyStartsWith (dropEnd s 2) ['$'] || pyIsDigit (dropEnd s 2)
        || pyIsIdent (dropEnd s 2)) = true) :
    (parse_operand_stripped s mn).1 = .ABSX := by
  obtain ⟨c, bt, hbase, hcfacts⟩ := base_head_of_guard hB
  obtain ⟨hno_hash, hno_paren⟩ := base_head_not_special hcfacts
  obtain ⟨t2, hs⟩ :=
    head_of_take (show s.take (s.length - 2) = c :: bt from hbase)
  have n1 : ¬(pyStartsWith s ['#'] = true) := by
    rw [hs]
    simp [pyStartsWith, hno_hash]
  have n2 : pyStartsWith s ['('] = false := by
    rw [hs]
    simp [pyStartsWith, hno_paren]
  unfold parse_operand_stripped
  rw [if_neg n1, if_neg (by simp [n2]), if_neg (by simp [n2]),
    if_neg (by simp [n2]), if_pos (by rw [Bool.and_eq_true]; exact ⟨hE, hB⟩)]

/-- A stripped operand ending in `,Y` whose base is `$`-prefixed,
decimal, or an identifier is classified ABSY. -/
theorem parse_stripped_absy (s : List Char) (mn : Option String)
    (hE : pyEndsWith s [',', 'Y'] = true)
    (hB : (pyStartsWith (dropEnd s 2) ['$'] || pyIsDigit (dropEnd s 2)
        || pyIsIdent (dropEnd s 2)) = true) :
    (parse_operand_stripped s mn).1 = .ABSY := by
  obtain ⟨c, bt, hbase, hcfacts⟩ := base_head_of_guard hB
  obtain ⟨hno_hash, hno_paren⟩ := base_head_not_special hcfacts
  obtain ⟨t2, hs⟩ :=
    head_of_take (show s.take (s.length - 2) = c :: bt from hbase)
  have n1 : ¬(pyStartsWith s ['#'] = true) := by
    rw [hs]
    simp [pyStartsWith, hno_hash]
  have n2 : pyStartsWith s ['('] = false := by
    rw [hs]
    simp [pyStartsWith, hno_paren]
  have nX : pyEndsWith s [',', 'X'] = false := endsWith_comma_Y_not_X hE
  unfold parse_operand_stripped
  rw [if_neg n1, if_neg (by simp [n2]), if_neg (by simp [n2]),
    if_neg (by simp [n2]), if_neg (by simp [nX]),
    if_pos (by rw [Bool.and_eq_true]; exact ⟨hE, hB⟩)]

/-- **C7.** `parse_operand` can never return the ZPX or ZPY addressing
modes: the zero-page-indexed rules are shadowed by the absolute-indexed
rules, which demand only that the base be `$hex`, decimal, or an
identifier.  An operand whose stripped text ends in `,X` (resp. `,Y`)
with such a base is always classified ABSX (resp. ABSY), whose
instruction size is 3 bytes — the assembler emits the long encoding
even for zero-page-range arguments. -/
theorem C7_classifier_never_zero_page_indexed (operand : List Char)
    (mnemonic : Option String) :
    (parse_operand operand mnemonic).1 ≠ .ZPX ∧
    (parse_operand operand mnemonic).1 ≠ .ZPY ∧
    (pyEndsWith (pyStrip operand) [',', 'X'] = true →
      (pyStartsWith (dropEnd (pyStrip operand) 2) ['$']
        || pyIsDigit (dropEnd (pyStrip operand) 2)
        || pyIsIdent (dropEnd (pyStrip operand) 2)) = true →
      (parse_operand operand mnemonic).1 = .ABSX) ∧
    (pyEndsWith (pyStrip operand) [',', 'Y'] = true →
      (pyStartsWith (dropEnd (pyStrip operand) 2) ['$']
        || pyIsDigit (dropEnd (pyStrip operand) 2)
        || pyIsIdent (dropEnd (pyStrip operand) 2)) = true →
      (parse_operand operand mnemonic).1 = .ABSY) ∧
    instr_size .ABSX = 3 ∧ instr_size .ABSY = 3 :=
  ⟨(parse_stripped_not_zp_indexed (pyStrip operand) mnemonic).1,
   (parse_stripped_not_zp_indexed (pyStrip operand) mnemonic).2,
   fun hE hB => parse_stripped_absx (pyStrip operand) mnemonic hE hB,
   fun hE hB => parse_stripped_absy (pyStrip operand) mnemonic hE hB,
   by decide, by decide⟩

/-- Witness for C7 at the zero-page-range operand `$10,X` (and `$10,Y`),
which the classifier nevertheless encodes as 3-byte ABSX/ABSY. -/
theorem C7_classifier_never_zero_page_indexed_witness :
    (parse_operand "$10,X".data (some "LDA")).1 = .ABSX ∧
    (parse_operand "$10,Y".data (some "LDA")).1 = .ABSY := by
  have h := C7_classifier_never_zero_page_indexed "$10,X".data (some "LDA")
  have h2 := C7_classifier_never_zero_page_indexed "$10,Y".data (some "LDA")
  exact ⟨h.2.2.1 (by decide) (by decide), h2.2.2.2.1 (by decide) (by decide)⟩

/-! ## Store lemmas for the second-pass safety theorem -/

theorem pySliceIdx_of_nonneg {n : Nat} {i : Int} (h0 : 0 ≤ i)
    (hle : i ≤ (n : Int)) : pySliceIdx n i = i.toNat := by
  unfold pySliceIdx
  rw [if_neg (by omega)]
  exact Nat.min_eq_left (by omega)

theorem pySetSlice_in_bounds {buf : List Nat} {off b : Int} {xs : List Nat}
    (hb : b = off + xs.length) (h0 : 0 ≤ off)
    (hfit : off + xs.length ≤ (buf.length : Int)) :
    pySetSlice buf off b xs
      = buf.take off.toNat ++ xs ++ buf.drop (off.toNat + xs.length) := by
  subst hb
  unfold pySetSlice
  rw [pySliceIdx_of_nonneg h0 (by omega),
      pySliceIdx_of_nonneg (by omega) (by omega),
      max_eq_right (by omega),
      show ((off + (xs.length : Int)).toNat) = off.toNat + xs.length by omega]

theorem checkedSetSlice_in_bounds {buf : List Nat} {off : Int}
    {xs : List Nat} (h0 : 0 ≤ off)
    (hfit : off + xs.length ≤ (buf.length : Int)) :
    checkedSetSlice buf off xs
      = some (buf.take off.toNat ++ xs ++ buf.drop (off.toNat + xs.length)) := by
  unfold checkedSetSlice
  rw [if_pos ⟨h0, hfit⟩]

theorem splice_length {buf xs : List Nat} {a : Nat}
    (h : a + xs.length ≤ buf.length) :
    (buf.take a ++ xs ++ buf.drop (a + xs.length)).length = buf.length := by
  rw [List.length_append, List.length_append, List.length_take,
    List.length_drop, Nat.min_eq_left (by omega)]
  omega

theorem pySetItem_in_bounds {buf : List Nat} {i : Int} {v : Nat}
    (h0 : 0 ≤ i) (hlt : i < (buf.length : Int)) :
    pySetItem buf i v = some (buf.set i.toNat v) ∧
    checkedSetItem buf i v = some (buf.set i.toNat v) := by
  constructor
  · unfold pySetItem
    rw [if_neg (by omega : ¬ i < 0), if_pos ⟨h0, hlt⟩]
  · unfold checkedSetItem
    rw [if_pos ⟨h0, hlt⟩]

/-- Every successful `encode_instr` emits `instr_size` bytes in total
(opcode plus operand bytes). -/
theorem encode_instr_ops_length (labels : LabelMap) (m : String)
    (t : AddrType) (v : Option (List Char)) (pc : Nat) (b : Nat)
    (ops : List Nat) (h : encode_instr labels m t v pc = .ok (b, ops)) :
    1 + ops.length = instr_size t := by
  cases t <;>
    · simp only [encode_instr, bind, Except.bind] at h
      repeat' split at h
      all_goals try simp_all [pure, Except.pure, byte1, byte2, instr_size]
      all_goals
        (rename_i hq1 hq2
         try (split at hq1 <;>
                (try simp_all [pure, Except.pure, byte1, byte2, instr_size]))
         all_goals (subst hq1
                    rw [← h.2]
                    try simp))

/-- The `.word` loop agrees with its checked twin and advances pc by
two bytes per value when every store fits the buffer. -/
theorem emit_words_eq (labels : LabelMap) (origin : Nat)
    (horig : origin ≤ 0x10000) :
    ∀ (vals : List (List Char)) (st : P2State),
    origin ≤ st.pc → st.output.length = 0x10000 - origin →
    st.pc + 2 * vals.length ≤ 0x10000 →
    (emit_words labels origin vals st
      = emit_words_checked labels origin vals st) ∧
    (∀ st', emit_words labels origin vals st = .ok st' →
      st'.pc = st.pc + 2 * vals.length ∧
      st'.output.length = 0x10000 - origin) := by
  intro vals
  induction vals with
  | nil =>
    intro st h1 h2 h3
    refine ⟨rfl, fun st' h => ?_⟩
    cases h
    exact ⟨by simp, h2⟩
  | cons val rest ih =>
    intro st h1 h2 h3
    have hlc : (val :: rest).length = rest.length + 1 := rfl
    rw [hlc] at h3
    simp only [emit_words, emit_words_checked, bind, Except.bind]
    cases hr : resolve_value labels val with
    | error e => exact ⟨rfl, fun st' h => by simp at h⟩
    | ok addrv =>
      dsimp only
      have hoff0 : (0 : Int) ≤ (st.pc : Int) - origin := by omega
      have hb2 : (byte2 addrv).length = 2 := rfl
      have hfit : ((st.pc : Int) - origin) + (byte2 addrv).length
          ≤ (st.output.length : Int) := by
        rw [hb2, h2]
        omega
      rw [pySetSlice_in_bounds (by rw [hb2]; norm_num) hoff0 hfit,
          checkedSetSlice_in_bounds hoff0 hfit]
      have hlen2 : (st.output.take ((st.pc : Int) - origin).toNat ++
          byte2 addrv ++
          st.output.drop (((st.pc : Int) - origin).toNat +
            (byte2 addrv).length)).length = 0x10000 - origin := by
        rw [splice_length (by rw [hb2, h2]; omega), h2]
      obtain ⟨ihe, ihp⟩ := ih
        { output := st.output.take ((st.pc : Int) - origin).toNat ++
            byte2 addrv ++
            st.output.drop (((st.pc : Int) - origin).toNat +
              (byte2 addrv).length),
          pc := st.pc + 2,
          maxWritten := max st.maxWritten (((st.pc : Int) - origin) + 2) }
        (by dsimp only; omega) hlen2 (by dsimp only; omega)
      refine ⟨ihe, fun st' h => ?_⟩
      obtain ⟨hpc, hlen⟩ := ihp st' h
      refine ⟨?_, hlen⟩
      rw [hpc, hlc]
      dsimp only
      omega

/-- The `.byte` loop agrees with its checked twin and advances pc by
one byte per value when every store fits the buffer. -/
theorem emit_bytes_eq (labels : LabelMap) (origin : Nat)
    (horig : origin ≤ 0x10000) :
    ∀ (vals : List (List Char)) (st : P2State),
    origin ≤ st.pc → st.output.length = 0x10000 - origin →
    st.pc + vals.length ≤ 0x10000 →
    (emit_bytes labels origin vals st
      = emit_bytes_checked labels origin vals st) ∧
    (∀ st', emit_bytes labels origin vals st = .ok st' →
      st'.pc = st.pc + vals.length ∧
      st'.output.length = 0x10000 - origin) := by
  intro vals
  induction vals with
  | nil =>
    intro st h1 h2 h3
    refine ⟨rfl, fun st' h => ?_⟩
    cases h
    exact ⟨by simp, h2⟩
  | cons val rest ih =>
    intro st h1 h2 h3
    have hlc : (val :: rest).length = rest.length + 1 := rfl
    rw [hlc] at h3
    simp only [emit_bytes, emit_bytes_checked, bind, Except.bind]
    cases hr : resolve_value labels val with
    | error e => exact ⟨rfl, fun st' h => by simp at h⟩
    | ok bv =>
      dsimp only
      have hoff0 : (0 : Int) ≤ (st.pc : Int) - origin := by omega
      have hlt : ((st.pc : Int) - origin) < (st.output.length : Int) := by
        rw [h2]
        omega
      obtain ⟨hpy, hck⟩ := pySetItem_in_bounds
        (v := (bv.emod 256).toNat) hoff0 hlt
      rw [hpy, hck]
      obtain ⟨ihe, ihp⟩ := ih
        { output := st.output.set ((st.pc : Int) - origin).toNat
            (bv.emod 256).toNat,
          pc := st.pc + 1,
          maxWritten := max st.maxWritten (((st.pc : Int) - origin) + 1) }
        (by dsimp only; omega) (by dsimp only; rw [List.length_set]; exact h2)
        (by dsimp only; omega)
      refine ⟨ihe, fun st' h => ?_⟩
      obtain ⟨hpc, hlen⟩ := ihp st' h
      refine ⟨?_, hlen⟩
      rw [hpc, hlc]
      dsimp only
      omega

/-- One second-pass line agrees with its checked twin when its stores
fit the buffer, and a successful line preserves the invariants and
advances pc to `nextPc`. -/
theorem second_pass_line_eq (labels : LabelMap) (origin : Nat)
    (horig : origin ≤ 0x10000) (p : Parsed) (st : P2State)
    (h1 : origin ≤ st.pc) (h2 : st.output.length = 0x10000 - origin)
    (hok : lineStoreOk origin st.pc p = true) :
    (second_pass_line labels origin p st
      = second_pass_line_checked labels origin p st) ∧
    (∀ st', second_pass_line labels origin p st = .ok st' →
      origin ≤ st'.pc ∧ st'.output.length = 0x10000 - origin ∧
      st'.pc = nextPc p st.pc) := by
  cases p with
  | label name =>
    exact ⟨rfl, fun st' h => by cases h; exact ⟨h1, h2, rfl⟩⟩
  | org v =>
    simp only [lineStoreOk, decide_eq_true_eq] at hok
    exact ⟨rfl, fun st' h => by cases h; exact ⟨hok, h2, rfl⟩⟩
  | word vals =>
    simp only [lineStoreOk, decide_eq_true_eq] at hok
    obtain ⟨he, hp⟩ := emit_words_eq labels origin horig vals st h1 h2 hok
    exact ⟨he, fun st' h => by
      obtain ⟨hpc, hlen⟩ := hp st' h
      exact ⟨by omega, hlen, hpc⟩⟩
  | byte vals =>
    simp only [lineStoreOk, decide_eq_true_eq] at hok
    obtain ⟨he, hp⟩ := emit_bytes_eq labels origin horig vals st h1 h2 hok
    exact ⟨he, fun st' h => by
      obtain ⟨hpc, hlen⟩ := hp st' h
      exact ⟨by omega, hlen, hpc⟩⟩
  | res n =>
    exact ⟨rfl, fun st' h => by
      cases h; exact ⟨by dsimp only; omega, h2, rfl⟩⟩
  | instr mnem op =>
    simp only [lineStoreOk, decide_eq_true_eq] at hok
    simp only [second_pass_line, second_pass_line_checked, bind, Except.bind]
    cases hpo : parse_operand op (some mnem) with
    | mk at_ value =>
      rw [hpo] at hok
      dsimp only at hok ⊢
      cases henc : encode_instr labels mnem at_ value st.pc with
      | error e => exact ⟨rfl, fun st' h => by simp at h⟩
      | ok pr =>
        obtain ⟨opcode, ops⟩ := pr
        dsimp only
        have hsz := encode_instr_ops_length labels mnem at_ value st.pc
          opcode ops henc
        have hoff0 : (0 : Int) ≤ (st.pc : Int) - origin := by omega
        have hlt : ((st.pc : Int) - origin) < (st.output.length : Int) := by
          rw [h2]
          omega
        obtain ⟨hpy, hck⟩ := pySetItem_in_bounds (v := opcode) hoff0 hlt
        rw [hpy, hck]
        dsimp only
        have hoff1 : (0 : Int) ≤ ((st.pc : Int) - origin) + 1 := by omega
        have hfit1 : (((st.pc : Int) - origin) + 1) + ops.length
            ≤ ((st.output.set ((st.pc : Int) - origin).toNat opcode).length
                : Int) := by
          rw [List.length_set, h2]
          omega
        rw [pySetSlice_in_bounds rfl hoff1 hfit1,
            checkedSetSlice_in_bounds hoff1 hfit1]
        dsimp only
        refine ⟨rfl, fun st' h => ?_⟩
        cases h
        dsimp only
        refine ⟨by omega, ?_, ?_⟩
        · rw [splice_length, List.length_set, h2]
          rw [List.length_set, h2]
          omega
        · rw [nextPc, hpo]
          dsimp only
          omega
  | str s nullterm =>
    simp only [lineStoreOk] at hok
    simp only [second_pass_line, second_pass_line_checked, bind, Except.bind]
    cases hsb : stringBytes s with
    | error e =>
      rw [hsb] at hok
      exact ⟨rfl, fun st' h => by simp at h⟩
    | ok bs =>
      rw [hsb] at hok
      simp only [decide_eq_true_eq] at hok
      dsimp only
      have hoff0 : (0 : Int) ≤ (st.pc : Int) - origin := by omega
      have hfit : ((st.pc : Int) - origin) + bs.length
          ≤ (st.output.length : Int) := by
        rw [h2]
        cases nullterm <;> simp at hok <;> omega
      rw [pySetSlice_in_bounds rfl hoff0 hfit,
          checkedSetSlice_in_bounds hoff0 hfit]
      have hlenS : (st.output.take ((st.pc : Int) - origin).toNat ++ bs ++
          st.output.drop (((st.pc : Int) - origin).toNat + bs.length)).length
          = 0x10000 - origin := by
        rw [splice_length (by rw [h2]; omega), h2]
      cases nullterm with
      | false =>
        dsimp only
        refine ⟨rfl, fun st' h => ?_⟩
        cases h
        dsimp only
        refine ⟨by omega, hlenS, ?_⟩
        rw [nextPc, hsb]
        simp
      | true =>
        dsimp only
        simp only [if_true]
        have hokT : st.pc + bs.length + 1 ≤ 0x10000 := by simpa using hok
        have hoff1 : (0 : Int) ≤ ((st.pc + bs.length : Nat) : Int) - origin :=
          by push_cast; omega
        have hlt1 : (((st.pc + bs.length : Nat) : Int) - origin)
            < ((st.output.take ((st.pc : Int) - origin).toNat ++ bs ++
                st.output.drop (((st.pc : Int) - origin).toNat +
                  bs.length)).length : Int) := by
          have hb := hlenS
          omega
        obtain ⟨hpy, hck⟩ := pySetItem_in_bounds (v := 0) hoff1 hlt1
        rw [hpy, hck]
        refine ⟨rfl, fun st' h => ?_⟩
        cases h
        dsimp only
        refine ⟨by omega, ?_, ?_⟩
        · rw [List.length_set, hlenS]
        · rw [nextPc, hsb]
          simp

/-- The second-pass line loop agrees with its checked twin when every
store along the walk fits the buffer. -/
theorem second_pass_lines_eq (labels : LabelMap) (origin : Nat)
    (horig : origin ≤ 0x10000) :
    ∀ (lines : List Parsed) (st : P2State),
    origin ≤ st.pc → st.output.length = 0x10000 - origin →
    storesInBounds origin st.pc lines = true →
    second_pass_lines labels origin lines st
      = second_pass_lines_checked labels origin lines st := by
  intro lines
  induction lines with
  | nil => intro st _ _ _; rfl
  | cons p rest ih =>
    intro st h1 h2 hs
    simp only [storesInBounds, Bool.and_eq_true] at hs
    obtain ⟨he, hp⟩ := second_pass_line_eq labels origin horig p st h1 h2 hs.1
    simp only [second_pass_lines, second_pass_lines_checked, bind,
      Except.bind]
    rw [← he]
    cases hl : second_pass_line labels origin p st with
    | error e => rfl
    | ok s2 =>
      obtain ⟨ha, hb, hc⟩ := hp s2 hl
      exact ih s2 ha hb (by rw [hc]; exact hs.2)

set_option maxRecDepth 16384 in
/-- C10: when every `.org` lands at or above the origin and every
emitted byte lands below `$10000`, `second_pass` agrees with its
bounds-checked shadow — every store hits the preallocated
`$10000 - origin` buffer.  When a `.org` drops `pc` below the origin
the offset goes negative: on origin `$FFF0` with `.org $FFEE` followed
by `.byte 5`, `second_pass` succeeds, the byte lands at buffer position
`14` — counted from the end of the 16-byte buffer — and the returned
image is empty, while the bounds-checked shadow reports an index
error. -/
theorem C10_second_pass_buffer (labels : LabelMap) (origin : Nat)
    (lines : List Parsed) (horig : origin ≤ 0x10000)
    (hs : storesInBounds origin origin lines = true) :
    (second_pass labels origin lines
      = second_pass_checked labels origin lines) ∧
    ((second_pass [] 0xFFF0 [.org 0xFFEE, .byte [['5']]]).toOption.map
        (fun r => (r.1.length, r.2.output.get? 14, r.2.pc))
      = some (0, some 5, 0xFFEF)) ∧
    ((match second_pass_checked [] 0xFFF0 [.org 0xFFEE, .byte [['5']]] with
      | .error AsmErr.indexErr => true
      | _ => false) = true) := by
  refine ⟨?_, by decide, by decide⟩
  have h := second_pass_lines_eq labels origin horig lines
    { output := List.replicate (0x10000 - origin) 0, pc := origin,
      maxWritten := 0 } (Nat.le_refl _) (by simp) hs
  simp only [second_pass, second_pass_checked, bind, Except.bind]
  rw [h]

theorem C10_second_pass_buffer_witness :
    second_pass [] 0xFF00 [.byte [['5'], ['6']]]
      = second_pass_checked [] 0xFF00 [.byte [['5'], ['6']]] :=
  (C10_second_pass_buffer [] 0xFF00 [.byte [['5'], ['6']]]
    (by decide) (by decide)).1

set_option maxRecDepth 65536 in
/-- C1: the opcode matrix round-trips — for every `(opcode, mnemonic,
mode)` row of the CPU's dispatch table, the assembler's `OPCODES`
lookup encodes the `(mnemonic, mode)` pair back to that opcode byte,
and the CPU's decoder maps the byte back to that `(mnemonic, mode)`
pair: `decode (encode pair) = pair` for every pair the matrix
contains. -/
theorem C1_opcode_roundtrip :
    ∀ e ∈ cpuTable,
      opcodesLookup (asmKey e.2.1 e.2.2) = some e.1 ∧
      cpuDecode e.1 = some e.2 := by decide

set_option maxRecDepth 16384 in
theorem C1_opcode_roundtrip_witness :
    opcodesLookup (asmKey "LDA" AddrType.IMM) = some 0xA9 ∧
    cpuDecode 0xA9 = some ("LDA", AddrType.IMM) :=
  C1_opcode_roundtrip (0xA9, "LDA", AddrType.IMM) (by decide)

end MBox
